import Mathlib

/-!
Verification development for the hotel/room feed-ingestion core:
a shallow embedding of `src/Stays/RoomFeedParser.ts` (streaming XML room
parser) and of `EnterpriseHotelRoomMappingService` (reconciliation engine:
`mapRoom`, conflict tracking, `resolveConflict`, quality scoring), together
with theorems settling the specified properties.

JavaScript conventions are embedded explicitly:
* `undefined`/`null` become `Option`;
* string truthiness (`if (s)`) is `s ≠ ""`, number truthiness is `n ≠ 0`,
  and `NaN` (from `parseInt`) is modelled as `none`;
* attribute lookups `a.x || a.y` become an `Option.orElse` chain in which an
  empty-string attribute value counts as absent (JS falsiness);
* `Date` timestamps are an explicit `now : Nat` parameter.
-/

namespace Stays

/-- Boolean infix test on character lists. -/
def listInfix (needle : List Char) : List Char → Bool
  | [] => needle.isEmpty
  | c :: cs => needle.isPrefixOf (c :: cs) || listInfix needle cs

/-- JS `String.prototype.includes`: substring containment. -/
def strIncludes (s sub : String) : Bool :=
  listInfix sub.toList s.toList

/-- ASCII whitespace, for the trims performed by the source. -/
def isWsChar (c : Char) : Bool :=
  c == ' ' || c == '\t' || c == '\n' || c == '\r'

/-- Trim both ends of a character list. -/
def trimChars (cs : List Char) : List Char :=
  ((cs.dropWhile isWsChar).reverse.dropWhile isWsChar).reverse

/-- JS `String.prototype.trim` (ASCII whitespace), as a structural list
computation. -/
def strTrim (s : String) : String :=
  String.mk (trimChars s.toList)

/-- JS `toLowerCase` on ASCII, as a structural list computation. -/
def strToLower (s : String) : String :=
  String.mk (s.toList.map Char.toLower)

/-- JS `toUpperCase` on ASCII, as a structural list computation. -/
def strToUpper (s : String) : String :=
  String.mk (s.toList.map Char.toUpper)

/-- Leading decimal digits of a character list, as used by `parseInt`. -/
def takeDigits : List Char → List Char
  | [] => []
  | c :: cs => if c.isDigit then c :: takeDigits cs else []

/-- Numeric value of a digit list. -/
def digitsToNat (cs : List Char) : Nat :=
  cs.foldl (fun acc c => acc * 10 + (c.toNat - 48)) 0

/-- JS `parseInt(s, 10)`: trims whitespace, optional sign, then a maximal
digit prefix; `none` models `NaN`. -/
def parseIntJS (s : String) : Option Int :=
  match trimChars s.toList with
  | '-' :: rest =>
    let ds := takeDigits rest
    if ds.isEmpty then none else some (-(digitsToNat ds : Int))
  | '+' :: rest =>
    let ds := takeDigits rest
    if ds.isEmpty then none else some ((digitsToNat ds : Int))
  | cs =>
    let ds := takeDigits cs
    if ds.isEmpty then none else some ((digitsToNat ds : Int))

/-- Truthy attribute access `tag.attributes.key`: absent and empty-string
values are both falsy, hence `none`. -/
def attrT (attrs : List (String × String)) (key : String) : Option String :=
  match attrs.find? (fun p => p.1 == key) with
  | some p => if p.2 == "" then none else some p.2
  | none => none

/-- JS truthiness of an optional string (`undefined` and `""` are falsy). -/
def optStrTruthy : Option String → Bool
  | none => false
  | some s => s != ""

/-- JS truthiness of an optional number (`undefined`, `NaN` and `0` are falsy). -/
def optIntTruthy : Option Int → Bool
  | none => false
  | some n => n != 0

/-! ## The Stays data model (`StaysTypes`) -/

/-- Closed bed-type enumeration returned by `normalizeBedType`. -/
inductive StaysBedType where
  | single | double | full | twin | queen | king | bunk | sofabed | murphy
  deriving DecidableEq, Repr

/-- A bed entry; `count` is `Option Int` because a non-numeric `count`
attribute yields JS `NaN`, modelled as `none`. -/
structure StaysBed where
  type : StaysBedType
  count : Option Int
  deriving DecidableEq, Repr

structure StaysPhoto where
  url : String
  deriving DecidableEq, Repr

/-- An amenity entry; the `type` is one of the closed amenity strings
produced by `mapAmenity`. -/
structure StaysAmenity where
  type : String
  description : String
  deriving DecidableEq, Repr

/-- A room rate. Monetary amounts are `Option String` (`null` vs a decimal
string); `expires_at` is a modelled timestamp. -/
structure StaysRoomRate where
  id : String
  code : Option String
  total_amount : String
  total_currency : String
  base_amount : Option String
  base_currency : String
  tax_amount : Option String
  tax_currency : String
  fee_amount : Option String
  fee_currency : String
  due_at_accommodation_amount : Option String
  due_at_accommodation_currency : String
  payment_type : String
  board_type : String
  available_payment_methods : List String
  conditions : List String
  cancellation_timeline : List String
  loyalty_programme_required : Bool
  supported_loyalty_programme : Option String
  source : String
  expires_at : Nat
  description : Option String
  quantity_available : Option Int
  deriving DecidableEq, Repr

/-- Room attributes; the source field `class` is a reserved word in Lean and
is embedded as `cls`. -/
structure StaysRoomAttrs where
  cls : Option String := none
  view : Option String := none
  deriving DecidableEq, Repr

/-- The normalized room record emitted by the parser and consumed by the
mapping service. -/
structure StaysRoom where
  name : String
  max_occupancy : Option Int := none
  beds : List StaysBed := []
  photos : List StaysPhoto := []
  amenities : List StaysAmenity := []
  attributes : StaysRoomAttrs := {}
  rates : List StaysRoomRate := []
  deriving DecidableEq, Repr

/-! ## Normalizer tables (`normalizeBedType`, `mapAmenity`) -/

/-- `normalizeBedType`: lower-cases the input and applies the source's
ordered substring rules, defaulting to `single`. -/
def normalizeBedType (rawType : String) : StaysBedType :=
  let lower := strToLower rawType
  if strIncludes lower "king" then .king
  else if strIncludes lower "queen" then .queen
  else if strIncludes lower "double" then .double
  else if strIncludes lower "twin" then .twin
  else if strIncludes lower "sofa" then .sofabed
  else if strIncludes lower "murphy" then .murphy
  else if strIncludes lower "bunk" then .bunk
  else if strIncludes lower "full" then .full
  else .single

/-- `AMENITY_MAPPING` in source (object-key) order. -/
def AMENITY_MAPPING : List (String × String) :=
  [("WIFI", "wifi"), ("INTERNET", "wifi"), ("POOL", "pool"), ("SWIMMING", "pool"),
   ("PARKING", "parking"), ("VALET", "parking"), ("GYM", "gym"), ("FITNESS", "gym"),
   ("WORKOUT", "gym"), ("SPA", "spa"), ("SAUNA", "spa"), ("RESTAURANT", "restaurant"),
   ("DINING", "restaurant"), ("ROOMSERVICE", "room_service"), ("LAUNDRY", "laundry"),
   ("DRYCLEANING", "laundry"), ("CONCIERGE", "concierge"), ("PETS", "pets_allowed"),
   ("DOG", "pets_allowed"), ("CAT", "pets_allowed"), ("BUSINESS", "business_centre"),
   ("LOUNGE", "lounge"), ("BAR", "lounge"), ("CHILDCARE", "childcare_service"),
   ("BABY", "childcare_service"), ("ATM", "cash_machine"), ("CASH", "cash_machine"),
   ("FRONTDESK", "24_hour_front_desk"), ("RECEPTION", "24_hour_front_desk"),
   ("ACCESSIB", "accessibility_mobility"), ("HANDICAP", "accessibility_mobility"),
   ("HEARING", "accessibility_hearing"), ("ADULT", "adult_only")]

/-- Keep only `A`–`Z` and `0`–`9`, as the source's `replace(/[^A-Z0-9]/g, '')`. -/
def isUpperAlnum (c : Char) : Bool :=
  (('A' ≤ c) && (c ≤ 'Z')) || (('0' ≤ c) && (c ≤ '9'))

/-- `mapAmenity`: upper-case, strip non-alphanumerics, first table entry whose
key is a substring wins, default `wifi`. -/
def mapAmenity (rawCode : String) : String :=
  let normalized := String.mk ((strToUpper rawCode).toList.filter isUpperAlnum)
  match AMENITY_MAPPING.find? (fun kv => strIncludes normalized kv.1) with
  | some kv => kv.2
  | none => "wifi"

/-! ## The feed parser (`HotelRoomFeedParser.parse`) -/

/-- A SAX event as delivered by `saxes`; close tags carry the tag's
attributes (saxes passes the same tag object to `closetag`). -/
inductive XmlEvent where
  | openTag (name : String) (attrs : List (String × String))
  | text (s : String)
  | closeTag (name : String) (attrs : List (String × String))
  deriving DecidableEq, Repr

/-- One `onRoomFound(room, sourceId?, hotelId?)` callback invocation. -/
structure EmittedRoom where
  room : StaysRoom
  sourceId : Option String
  hotelId : Option String
  deriving DecidableEq, Repr

/-- The parser's mutable closure state; `output` accumulates the callback
invocations in order. -/
structure ParserState where
  currentHotelId : Option String := none
  currentRoom : Option StaysRoom := none
  currentRate : Option StaysRoomRate := none
  currentSourceId : Option String := none
  textBuffer : String := ""
  output : List EmittedRoom := []
  deriving DecidableEq, Repr

def isWrapperTag (n : String) : Bool :=
  n == "Hotel" || n == "HotelDescriptiveContent" || n == "Property"

def isRoomTag (n : String) : Bool :=
  n == "Room" || n == "GuestRoom"

def isRateTag (n : String) : Bool :=
  n == "Rate" || n == "RatePlan"

/-- The in-progress rate created on `Rate`/`RatePlan` open: the source's
default record. The source's generated fallback id is `rate_` plus a random
suffix; the suffix is opaque, modelled by a fixed placeholder. -/
def defaultRate (now : Nat) (idAttr codeAttr : Option String) : StaysRoomRate :=
  { id := idAttr.getD "rate_generated"
    code := codeAttr
    total_amount := "0.00", total_currency := "USD"
    base_amount := none, base_currency := "USD"
    tax_amount := none, tax_currency := "USD"
    fee_amount := none, fee_currency := "USD"
    due_at_accommodation_amount := none, due_at_accommodation_currency := "USD"
    payment_type := "pay_now", board_type := "room_only"
    available_payment_methods := ["card"], conditions := [], cancellation_timeline := []
    loyalty_programme_required := false, supported_loyalty_programme := none
    source := "duffel_hotel_group"
    expires_at := now + 86400000
    description := none, quantity_available := none }

/-- The `opentag` handler. -/
def onOpenTag (now : Nat) (st : ParserState) (name : String)
    (attrs : List (String × String)) : ParserState :=
  let st := { st with textBuffer := "" }
  let st :=
    if isWrapperTag name then
      { st with currentHotelId := (attrT attrs "HotelCode" <|> attrT attrs "HotelID" <|>
          attrT attrs "id" <|> attrT attrs "Code") }
    else st
  let st :=
    if isRoomTag name then
      let sid := attrT attrs "id" <|> attrT attrs "code" <|> attrT attrs "RoomTypeCode" <|>
        attrT attrs "RoomID"
      let room : StaysRoom :=
        { name := (attrT attrs "roomTypeName" <|> attrT attrs "name").getD "" }
      let room :=
        match attrT attrs "maxOccupancy" <|> attrT attrs "MaxOccupancy" with
        | some s => { room with max_occupancy := parseIntJS s }
        | none => room
      { st with currentSourceId := sid, currentRoom := some room }
    else st
  match st.currentRoom with
  | none => st
  | some room =>
    let st :=
      if name == "Bed" then
        let ty := normalizeBedType ((attrT attrs "type").getD "")
        let cnt := parseIntJS ((attrT attrs "count").getD "1")
        { st with currentRoom := some { room with beds := room.beds ++ [⟨ty, cnt⟩] } }
      else if name == "TypeRoom" then
        let room' :=
          match attrT attrs "name" with
          | some tn => if room.name == "" then { room with name := tn } else room
          | none => room
        let sid :=
          match attrT attrs "RoomTypeCode" <|> attrT attrs "code" with
          | some tc => if st.currentSourceId == none then some tc else st.currentSourceId
          | none => st.currentSourceId
        { st with currentRoom := some room', currentSourceId := sid }
      else if name == "Photo" || name == "Image" then
        match attrT attrs "url" <|> attrT attrs "src" with
        | some url => { st with currentRoom := some { room with photos := room.photos ++ [⟨url⟩] } }
        | none => st
      else if name == "Amenity" then
        let am : StaysAmenity := ⟨mapAmenity ((attrT attrs "code").getD ""), ""⟩
        { st with currentRoom := some { room with amenities := room.amenities ++ [am] } }
      else st
    if isRateTag name then
      { st with currentRate := some (defaultRate now (attrT attrs "id") (attrT attrs "code")) }
    else st

/-- The `text` handler: buffers only while inside a room. -/
def onText (st : ParserState) (s : String) : ParserState :=
  match st.currentRoom with
  | none => st
  | some _ => { st with textBuffer := st.textBuffer ++ s }

/-- Increment the count of the first bed entry of the given type (the
source's find-then-mutate aggregation); `none` if no such entry exists. -/
def incFirstBed : List StaysBed → StaysBedType → Option (List StaysBed)
  | [], _ => none
  | b :: bs, ty =>
    if b.type == ty then some ({ b with count := b.count.map (· + 1) } :: bs)
    else (incFirstBed bs ty).map (b :: ·)

/-- Set the description of the last amenity entry, if any. -/
def setLastDescription : List StaysAmenity → String → List StaysAmenity
  | [], _ => []
  | [a], d => [{ a with description := d }]
  | a :: rest, d => a :: setLastDescription rest d

/-- The close-tag room-field chain (`Name`, `MaxOccupancy`, `BedType`,
`RoomCategory`, `RoomView`, `RoomAmenity`, `Amenity`). -/
def applyRoomField (room : StaysRoom) (name content : String) : StaysRoom :=
  if name == "Name" || name == "RoomName" then { room with name := content }
  else if name == "MaxOccupancy" then { room with max_occupancy := parseIntJS content }
  else if name == "Description" then room
  else if name == "BedType" then
    match incFirstBed room.beds (normalizeBedType content) with
    | some bs => { room with beds := bs }
    | none => { room with beds := room.beds ++ [⟨normalizeBedType content, some 1⟩] }
  else if name == "RoomCategory" then
    { room with attributes := { room.attributes with cls := some content } }
  else if name == "RoomView" then
    { room with attributes := { room.attributes with view := some content } }
  else if name == "RoomAmenity" then
    if content != "" then
      { room with amenities := room.amenities ++ [⟨mapAmenity content, content⟩] }
    else room
  else if name == "Amenity" then
    { room with amenities := setLastDescription room.amenities content }
  else room

/-- Tail of the `closetag` handler after the rate block: room-field chain,
then room emission. -/
def finishClose (st : ParserState) (room : StaysRoom) (name content : String) : ParserState :=
  let room1 := applyRoomField room name content
  if isRoomTag name then
    let st2 :=
      if room1.name != "" then
        { st with output := st.output ++
            [⟨room1, st.currentSourceId, st.currentHotelId⟩] }
      else st
    { st2 with currentRoom := none, currentSourceId := none }
  else
    { st with currentRoom := some room1 }

/-- The rate-field part of the `closetag` handler (`Amount`/`Total` and
`Meals`/`Board` while a rate is open). -/
def rateClose (rate : StaysRoomRate) (name content : String)
    (attrs : List (String × String)) : StaysRoomRate :=
  if name == "Amount" || name == "Total" then
    let r := { rate with total_amount := content }
    match attrT attrs "currency" with
    | some c =>
      { r with total_currency := c, base_currency := c, tax_currency := c,
               fee_currency := c, due_at_accommodation_currency := c }
    | none => r
  else if name == "Meals" || name == "Board" then
    if strIncludes (strToLower content) "breakfast" then { rate with board_type := "breakfast" }
    else if strIncludes (strToLower content) "all" then { rate with board_type := "all_inclusive" }
    else rate
  else rate

/-- The `closetag` handler. Note the source's early `if (!currentRoom) return`:
when no room is open the handler does nothing at all — in particular the
hotel-wrapper close does not clear `currentHotelId` in that case. -/
def onCloseTag (st : ParserState) (name : String)
    (attrs : List (String × String)) : ParserState :=
  match st.currentRoom with
  | none => st
  | some room =>
    let content := strTrim st.textBuffer
    let st1 := if isWrapperTag name then { st with currentHotelId := none } else st
    match st1.currentRate with
    | some rate =>
      if isRateTag name then
        { st1 with currentRoom := some { room with rates := room.rates ++ [rate] },
                   currentRate := none }
      else
        finishClose { st1 with currentRate := some (rateClose rate name content attrs) }
          room name content
    | none => finishClose st1 room name content

/-- One parser step. -/
def step (now : Nat) (st : ParserState) : XmlEvent → ParserState
  | .openTag n a => onOpenTag now st n a
  | .text s => onText st s
  | .closeTag n a => onCloseTag st n a

def initState : ParserState := {}

/-- Run the parser over an event sequence and collect the emitted rooms. -/
def runParser (now : Nat) (events : List XmlEvent) : List EmittedRoom :=
  (events.foldl (step now) initState).output

/-! ## The reconciliation engine (`EnterpriseHotelRoomMappingService`)

The Prisma datastore is embedded as an explicit `DB` record of tables
(lists of rows); `findFirst` is `List.find?`, `update where id` maps the
update over rows with that id, `create` appends a row with a fresh id drawn
from a counter. `new Date()` is the explicit `now` parameter. A transaction
that throws is modelled by `Except`: an error result means the transaction
rolled back and the datastore is unchanged. -/

inductive MappingType where
  | automatic | manual | verified
  deriving DecidableEq, Repr

structure HotelMapping where
  id : Nat
  hotelId : Nat
  source : String
  sourceId : String
  deriving DecidableEq, Repr

structure RoomMapping where
  id : Nat
  roomId : Nat
  hotelMappingId : Nat
  source : String
  sourceId : String
  sourceData : StaysRoom
  confidence : Rat
  mappingType : MappingType
  isPrimary : Bool
  lastSyncedAt : Nat
  qualityScore : Nat
  deriving DecidableEq, Repr

/-- The canonical Room row. `maxOccupancy` is `Option Int`: the column's
value may be absent in an arbitrary datastore state (JS reads it untyped). -/
structure Room where
  id : Nat
  hotelId : Nat
  name : String
  description : Option String
  maxOccupancy : Option Int
  deriving DecidableEq, Repr

/-- One element of a conflict's `conflictingSources` list. -/
structure ConflictEntry where
  source : String
  value : Int
  detectedAt : Nat
  deriving DecidableEq, Repr

inductive ConflictStatus where
  | Open | Resolved
  deriving DecidableEq, Repr

inductive Strategy where
  | keep_internal | apply_source
  deriving DecidableEq, Repr

structure MappingConflict where
  id : Nat
  entityType : String
  entityId : Nat
  fieldName : String
  conflictingSources : List ConflictEntry
  status : ConflictStatus
  resolution : Option Strategy
  resolvedAt : Option Nat
  detectedAt : Nat
  deriving DecidableEq, Repr

/-- Content blob stored by `upsertRoomEnrichment` (this core writes the
photo list under `images` and the amenity list under `amenities`). -/
inductive EnrichContent where
  | photos (ps : List StaysPhoto)
  | amenities (xs : List StaysAmenity)
  deriving DecidableEq, Repr

structure Enrichment where
  id : Nat
  roomId : Nat
  source : String
  fieldName : String
  content : EnrichContent
  quality : String
  enrichedAt : Option Nat
  deriving DecidableEq, Repr

/-- The datastore: one list per table plus a fresh-id counter. -/
structure DB where
  hotelMappings : List HotelMapping
  rooms : List Room
  roomMappings : List RoomMapping
  conflicts : List MappingConflict
  enrichments : List Enrichment
  nextId : Nat
  deriving DecidableEq, Repr

/-- `RoomMappingOptions`; `none` fields take the destructuring defaults
(0.8, automatic, false). -/
structure RoomMappingOptions where
  confidence : Option Rat := none
  mappingType : Option MappingType := none
  isPrimary : Option Bool := none
  deriving DecidableEq, Repr

/-- `calculateQualityScore`: fixed presence weights, capped at 100. -/
def calculateQualityScore (room : StaysRoom) : Nat :=
  let score := 0
  let score := if room.name != "" then score + 10 else score
  let score := if optIntTruthy room.max_occupancy then score + 10 else score
  let score := if room.beds.length > 0 then score + 20 else score
  let score := if room.photos.length > 0 then score + 20 else score
  let score := if room.amenities.length > 0 then score + 20 else score
  let score := if optStrTruthy room.attributes.cls || optStrTruthy room.attributes.view then
      score + 10
    else score
  let score := if room.rates.length > 0 then score + 10 else score
  min score 100

/-- The entry upsert inside `upsertConflict`: replace the entry whose
`source` matches (the source's `findIndex` + assignment), else append. -/
def upsertEntry (sources : List ConflictEntry) (source : String) (value : Int)
    (now : Nat) : List ConflictEntry :=
  let entry : ConflictEntry := ⟨source, value, now⟩
  match sources.findIdx? (fun s => s.source == source) with
  | some i => sources.set i entry
  | none => sources ++ [entry]

/-- The predicate of the `findFirst` in `upsertConflict`: an open conflict
for this (entityType, entityId, fieldName). -/
def openConflictPred (entityType : String) (entityId : Nat) (fieldName : String)
    (c : MappingConflict) : Bool :=
  c.entityType == entityType && c.entityId == entityId && c.fieldName == fieldName &&
    c.status == ConflictStatus.Open

/-- `upsertConflict`: merge into the existing open conflict for the key, or
create one seeded with the synthetic `internal` entry plus the incoming one. -/
def upsertConflict (entityType : String) (entityId : Nat) (fieldName : String)
    (source : String) (newValue currentValue : Int) (now : Nat) (db : DB) : DB :=
  match db.conflicts.find? (openConflictPred entityType entityId fieldName) with
  | some existing =>
    let newSources := upsertEntry existing.conflictingSources source newValue now
    { db with conflicts := db.conflicts.map (fun c =>
        if c.id == existing.id then { c with conflictingSources := newSources } else c) }
  | none =>
    let fresh : MappingConflict :=
      { id := db.nextId, entityType, entityId, fieldName
        conflictingSources := [⟨"internal", currentValue, now⟩, ⟨source, newValue, now⟩]
        status := ConflictStatus.Open, resolution := none, resolvedAt := none
        detectedAt := now }
    { db with conflicts := db.conflicts ++ [fresh], nextId := db.nextId + 1 }

/-- `detectAndRecordConflicts`: the only wired field is `maxOccupancy`; the
guard is the JS truthiness conjunction
`internalRoom.maxOccupancy && incomingData.max_occupancy && ≠`. -/
def detectAndRecordConflicts (internalRoom : Room) (source : String)
    (incomingData : StaysRoom) (now : Nat) (db : DB) : DB :=
  match internalRoom.maxOccupancy, incomingData.max_occupancy with
  | some v, some w =>
    if v != 0 && w != 0 && v != w then
      upsertConflict "room" internalRoom.id "maxOccupancy" source w v now db
    else db
  | _, _ => db

/-- `upsertRoomEnrichment`: keyed by (roomId, source, fieldName); update
content/timestamp/quality in place, else create (the creation row's
`enrichedAt` is left to the schema default, modelled `none`). -/
def upsertRoomEnrichment (roomId : Nat) (source fieldName : String)
    (content : EnrichContent) (quality : String) (now : Nat) (db : DB) : DB :=
  match db.enrichments.find? (fun e =>
      e.roomId == roomId && e.source == source && e.fieldName == fieldName) with
  | some existing =>
    { db with enrichments := db.enrichments.map (fun e =>
        if e.id == existing.id then
          { e with content := content, enrichedAt := some now, quality := quality }
        else e) }
  | none =>
    { db with
        enrichments := db.enrichments ++
          [⟨db.nextId, roomId, source, fieldName, content, quality, none⟩]
        nextId := db.nextId + 1 }

/-- Step 5 of `mapRoom`: the two conditional content-enrichment upserts. -/
def applyEnrichments (roomId : Nat) (source : String) (roomData : StaysRoom)
    (now : Nat) (db : DB) : DB :=
  let db :=
    if roomData.photos.length > 0 then
      upsertRoomEnrichment roomId source "images" (.photos roomData.photos) "pending" now db
    else db
  if roomData.amenities.length > 0 then
    upsertRoomEnrichment roomId source "amenities" (.amenities roomData.amenities) "pending"
      now db
  else db

/-- The per-row update of the `roomMapping.update` call in `mapRoom`:
sourceData/lastSyncedAt/qualityScore always; confidence/mappingType only when
the pre-update row found (`em`) is not `verified`. -/
def applyMappingUpdate (em : RoomMapping) (roomData : StaysRoom) (confidence : Rat)
    (mappingType : MappingType) (qualityScore now : Nat) (m : RoomMapping) : RoomMapping :=
  if m.id == em.id then
    let m1 := { m with sourceData := roomData, lastSyncedAt := now,
                       qualityScore := qualityScore }
    if em.mappingType != MappingType.verified then
      { m1 with confidence := confidence, mappingType := mappingType }
    else m1
  else m

/-- The update applied to the existing RoomMapping row in `mapRoom`. -/
def mapRoomExisting (em : RoomMapping) (roomData : StaysRoom) (confidence : Rat)
    (mappingType : MappingType) (qualityScore : Nat) (now : Nat) (db : DB) : DB :=
  { db with roomMappings :=
      db.roomMappings.map (applyMappingUpdate em roomData confidence mappingType
        qualityScore now) }

/-- `[class, view].filter(Boolean).join(', ') || null`. -/
def descFromAttrs (a : StaysRoomAttrs) : Option String :=
  let parts := ([a.cls, a.view].filterMap id).filter (fun s => s != "")
  let joined := String.intercalate ", " parts
  if joined == "" then none else some joined

/-- `roomData.max_occupancy || 2` (0, NaN and undefined fall to the default). -/
def occOrDefault : Option Int → Int
  | some n => if n != 0 then n else 2
  | none => 2

/-- Step 3b of `mapRoom`: find a canonical Room by exact (hotelId, name), or
create one. Returns the (possibly extended) datastore and the room. -/
def findOrCreateRoom (hm : HotelMapping) (roomData : StaysRoom) (db : DB) : DB × Room :=
  match db.rooms.find? (fun r => r.hotelId == hm.hotelId && r.name == roomData.name) with
  | some r => (db, r)
  | none =>
    let newRoom : Room :=
      { id := db.nextId, hotelId := hm.hotelId, name := roomData.name
        description := descFromAttrs roomData.attributes
        maxOccupancy := some (occOrDefault roomData.max_occupancy) }
    ({ db with rooms := db.rooms ++ [newRoom], nextId := db.nextId + 1 }, newRoom)

/-- The `findFirst` predicate for the parent hotel mapping. -/
def hotelMappingPred (source hotelSourceId : String) (h : HotelMapping) : Bool :=
  h.source == source && h.sourceId == hotelSourceId

/-- The `findFirst` predicate for the room mapping key. -/
def roomMappingPred (source roomSourceId : String) (hmId : Nat) (m : RoomMapping) : Bool :=
  m.source == source && m.sourceId == roomSourceId && m.hotelMappingId == hmId

/-- `mapRoom`: the whole transactional unit of work. A missing parent hotel
mapping logs and returns (no writes). -/
def createRoomMappingRow (hm : HotelMapping) (roomSourceId source : String)
    (roomData : StaysRoom) (confidence : Rat) (mappingType : MappingType)
    (isPrimary : Bool) (qualityScore now : Nat) (pr : DB × Room) : DB :=
  { pr.1 with
      roomMappings := pr.1.roomMappings ++
        [{ id := pr.1.nextId, roomId := pr.2.id, hotelMappingId := hm.id
           source, sourceId := roomSourceId, sourceData := roomData
           confidence, mappingType, isPrimary, lastSyncedAt := now, qualityScore }]
      nextId := pr.1.nextId + 1 }

def mapRoom (hotelSourceId roomSourceId source : String) (roomData : StaysRoom)
    (options : RoomMappingOptions) (now : Nat) (db : DB) : DB :=
  match db.hotelMappings.find? (hotelMappingPred source hotelSourceId) with
  | none => db
  | some hm =>
    match db.roomMappings.find? (roomMappingPred source roomSourceId hm.id) with
    | some em =>
      match db.rooms.find? (fun r => r.id == em.roomId) with
      | some cr =>
        applyEnrichments em.roomId source roomData now
          (detectAndRecordConflicts cr source roomData now
            (mapRoomExisting em roomData (options.confidence.getD (0.8 : Rat))
              (options.mappingType.getD MappingType.automatic)
              (calculateQualityScore roomData) now db))
      | none =>
        applyEnrichments em.roomId source roomData now
          (mapRoomExisting em roomData (options.confidence.getD (0.8 : Rat))
            (options.mappingType.getD MappingType.automatic)
            (calculateQualityScore roomData) now db)
    | none =>
      applyEnrichments (findOrCreateRoom hm roomData db).2.id source roomData now
        (detectAndRecordConflicts (findOrCreateRoom hm roomData db).2 source roomData now
          (createRoomMappingRow hm roomSourceId source roomData
            (options.confidence.getD (0.8 : Rat))
            (options.mappingType.getD MappingType.automatic)
            (options.isPrimary.getD false)
            (calculateQualityScore roomData) now (findOrCreateRoom hm roomData db)))

inductive ResolveError where
  | notFound
  | sourceNotFound
  deriving DecidableEq, Repr

/-- `resolveConflict(conflictId, strategy, sourceToApply?)`. The apply-source
block runs only under the JS truthiness guard
`strategy === 'apply_source' && sourceToApply`; the only entity/field pair
wired by this core is room/`maxOccupancy`, so the typed model writes that
column and leaves a room unchanged for any other field name. An `Except`
error is a thrown exception: the transaction rolls back. -/
def resolveConflict (conflictId : Nat) (strategy : Strategy)
    (sourceToApply : Option String) (now : Nat) (db : DB) : Except ResolveError DB :=
  match db.conflicts.find? (fun c => c.id == conflictId) with
  | none => .error ResolveError.notFound
  | some conflict =>
    let applied : Except ResolveError DB :=
      if strategy == Strategy.apply_source && optStrTruthy sourceToApply then
        match conflict.conflictingSources.find? (fun s => some s.source == sourceToApply) with
        | none => .error ResolveError.sourceNotFound
        | some sourceEntry =>
          if conflict.entityType == "room" then
            .ok { db with rooms := db.rooms.map (fun r =>
                    if r.id == conflict.entityId then
                      (if conflict.fieldName == "maxOccupancy" then
                        { r with maxOccupancy := some sourceEntry.value }
                      else r)
                    else r) }
          else .ok db
      else .ok db
    applied.map (fun db1 =>
      { db1 with conflicts := db1.conflicts.map (fun c =>
          if c.id == conflictId then
            { c with status := ConflictStatus.Resolved, resolution := some strategy,
                     resolvedAt := some now }
          else c) })

/-- The externally observed effect of `resolveConflict`: a thrown error means
the transaction rolled back, leaving the datastore unchanged. -/
def runResolveConflict (conflictId : Nat) (strategy : Strategy)
    (sourceToApply : Option String) (now : Nat) (db : DB) : DB :=
  match resolveConflict conflictId strategy sourceToApply now db with
  | .ok db1 => db1
  | .error _ => db

/-! ## Statement-level definitions for the verified properties -/

/-- At most one open conflict per (entityType, entityId, fieldName). -/
def OpenUnique (l : List MappingConflict) : Prop :=
  ∀ et eid fieldName, ((l.filter (openConflictPred et eid fieldName)).length ≤ 1)

/-- The five monetary amount/currency pairs of a rate hold their initial
values: total `"0.00"`/`"USD"`, the other four `null`/`"USD"`. -/
def MonetaryDefaults (rate : StaysRoomRate) : Prop :=
  rate.total_amount = "0.00" ∧ rate.total_currency = "USD" ∧
  rate.base_amount = none ∧ rate.base_currency = "USD" ∧
  rate.tax_amount = none ∧ rate.tax_currency = "USD" ∧
  rate.fee_amount = none ∧ rate.fee_currency = "USD" ∧
  rate.due_at_accommodation_amount = none ∧ rate.due_at_accommodation_currency = "USD"

/-- Events inert for an in-progress rate's monetary fields: no room or rate
boundary, no `Amount`/`Total` override, and no room-name rewrite (which
could suppress the emission). -/
def inertForRate : XmlEvent → Bool
  | .openTag n _ => !(isRoomTag n || isRateTag n)
  | .text _ => true
  | .closeTag n _ =>
    !(isRoomTag n || isRateTag n || n == "Amount" || n == "Total" ||
      n == "Name" || n == "RoomName")

/-- Invariant along a rate body: a room with the given nonempty name and no
finished rates is open, the in-progress rate still has the monetary
defaults, and nothing has been emitted. -/
def RateInv (n0 : String) (st : ParserState) : Prop :=
  ∃ room rate, st.currentRoom = some room ∧ room.name = n0 ∧ room.rates = [] ∧
    st.currentRate = some rate ∧ MonetaryDefaults rate ∧ st.output = []

/-- A bed-producing child of a room element: element-style `BedType` text
tag, or attribute-style `Bed` tag. -/
inductive BedEvent where
  | btext (s : String)
  | battr (ty cnt : String)
  deriving DecidableEq, Repr

/-- The XML events of one bed-producing child. -/
def bedEvts : BedEvent → List XmlEvent
  | .btext s => [.openTag "BedType" [], .text s, .closeTag "BedType" []]
  | .battr ty cnt =>
    [.openTag "Bed" [("type", ty), ("count", cnt)],
     .closeTag "Bed" [("type", ty), ("count", cnt)]]

def eventsOfBeds : List BedEvent → List XmlEvent
  | [] => []
  | e :: es => bedEvts e ++ eventsOfBeds es

/-- Is this a `BedType` text tag normalizing to `t`? -/
def isBtextOf (t : StaysBedType) : BedEvent → Bool
  | .btext s => normalizeBedType (strTrim s) == t
  | .battr _ _ => false

/-- No attribute-style `Bed` tag of normalized type `t` (the claim's "no
other bed-producing tags of that type"). -/
def noAttrOf (t : StaysBedType) : BedEvent → Bool
  | .btext _ => true
  | .battr ty _ => !(normalizeBedType ty == t)

/-- The expected type-`t` slice of the bed list after `k` aggregated
`BedType` occurrences. -/
def bedFilterEntry (t : StaysBedType) (k : Nat) : List StaysBed :=
  if k = 0 then [] else [⟨t, some (k : Int)⟩]

/-- Invariant along a room's bed-producing children: a room with the given
nonempty name is open, no rate is open, nothing emitted, and the type-`t`
slice of its bed list is exactly the aggregate of `k` occurrences. -/
def BedInv (n0 : String) (t : StaysBedType) (k : Nat) (st : ParserState) : Prop :=
  ∃ room, st.currentRoom = some room ∧ room.name = n0 ∧ st.currentRate = none ∧
    st.output = [] ∧ room.beds.filter (fun b => b.type == t) = bedFilterEntry t k

/-! Concrete inputs for the counterexamples, the code-bug evaluation and the
witnesses. -/

/-- A bulk feed in which a second room follows the close of a hotel wrapper. -/
def c6Events : List XmlEvent :=
  [.openTag "Hotel" [("HotelCode", "H1")],
   .openTag "Room" [("name", "A")], .closeTag "Room" [],
   .closeTag "Hotel" [],
   .openTag "Room" [("name", "B")], .closeTag "Room" []]

/-- A room holding one rate element with no nested content. -/
def c5Events : List XmlEvent :=
  [.openTag "Room" [("name", "A")], .openTag "Rate" [("id", "r1")],
   .closeTag "Rate" [], .closeTag "Room" []]

def c4Room : StaysRoom := { name := "Room A" }

def emptyDB : DB := ⟨[], [], [], [], [], 0⟩

def wHM : HotelMapping := ⟨1, 10, "s", "h1"⟩

def wRoom : Room := ⟨20, 10, "Room A", none, some 2⟩

def wRMAuto : RoomMapping := ⟨30, 20, 1, "s", "r1", c4Room, (0.8 : Rat), .automatic, false, 0, 0⟩

def wRMVerified : RoomMapping :=
  ⟨30, 20, 1, "s", "r1", c4Room, (0.95 : Rat), .verified, false, 0, 0⟩

/-- Witness datastore: one hotel mapping, one canonical room (occupancy 2),
one automatic room mapping. -/
def wDB : DB :=
  { hotelMappings := [wHM], rooms := [wRoom], roomMappings := [wRMAuto]
    conflicts := [], enrichments := [], nextId := 100 }

/-- Witness datastore with a verified room mapping. -/
def wDBVerified : DB := { wDB with roomMappings := [wRMVerified] }

/-- An open maxOccupancy conflict (internal=2, provider_b=4). -/
def wConflict : MappingConflict :=
  ⟨40, "room", 20, "maxOccupancy", [⟨"internal", 2, 0⟩, ⟨"provider_b", 4, 1⟩],
    .Open, none, none, 0⟩

/-- Witness datastore with one open maxOccupancy conflict. -/
def wDBConflict : DB := { wDB with conflicts := [wConflict] }

/-! ## Generic list lemmas -/

theorem find?_ext {α : Type} (p q : α → Bool) (h : ∀ a, p a = q a) :
    ∀ l : List α, l.find? p = l.find? q := by
  intro l
  induction l with
  | nil => rfl
  | cons a l ih =>
    simp only [List.find?_cons, h a]
    cases q a <;> simp [ih]

theorem find?_map_pres {α : Type} (f : α → α) (p : α → Bool) (h : ∀ a, p (f a) = p a) :
    ∀ l : List α, (l.map f).find? p = (l.find? p).map f := by
  intro l
  induction l with
  | nil => rfl
  | cons a l ih =>
    simp only [List.map_cons, List.find?_cons, h a]
    cases hp : p a <;> simp [ih]

theorem filter_map_pres {α : Type} (f : α → α) (p : α → Bool) (h : ∀ a, p (f a) = p a) :
    ∀ l : List α, (l.map f).filter p = (l.filter p).map f := by
  intro l
  induction l with
  | nil => rfl
  | cons a l ih =>
    simp only [List.map_cons, List.filter_cons, h a]
    cases hp : p a <;> simp [ih]

theorem find?_none_filter_nil {α : Type} (p : α → Bool) :
    ∀ l : List α, l.find? p = none → l.filter p = [] := by
  intro l
  induction l with
  | nil => intro _; rfl
  | cons a l ih =>
    intro h
    simp only [List.find?_cons] at h
    cases hp : p a
    · simp only [List.filter_cons, hp]
      exact ih (by simpa [hp] using h)
    · simp [hp] at h

theorem find?_some_filter_pos {α : Type} (p : α → Bool) :
    ∀ (l : List α) (x : α), l.find? p = some x → 0 < (l.filter p).length := by
  intro l
  induction l with
  | nil => intro x h; simp at h
  | cons a l ih =>
    intro x h
    simp only [List.find?_cons] at h
    cases hp : p a
    · simp only [List.filter_cons, hp, Bool.false_eq_true, if_false]
      exact ih x (by simpa [hp] using h)
    · simp [List.filter_cons, hp]

theorem find?_append_none {α : Type} (p : α → Bool) :
    ∀ (l₁ l₂ : List α), l₁.find? p = none → (l₁ ++ l₂).find? p = l₂.find? p := by
  intro l₁
  induction l₁ with
  | nil => intro l₂ _; rfl
  | cons a l ih =>
    intro l₂ h
    simp only [List.find?_cons, List.cons_append] at h ⊢
    cases hp : p a
    · simp only [hp] at h ⊢
      exact ih l₂ h
    · simp [hp] at h

theorem foldl_inv {σ α : Type} (f : σ → α → σ) (P : σ → Prop) (Q : α → Bool)
    (hstep : ∀ s a, P s → Q a = true → P (f s a)) :
    ∀ (l : List α) (s : σ), (∀ a ∈ l, Q a = true) → P s → P (l.foldl f s) := by
  intro l
  induction l with
  | nil => intro s _ hs; simpa using hs
  | cons a l ih =>
    intro s hq hs
    simp only [List.foldl_cons]
    exact ih _ (fun b hb => hq b (List.mem_cons_of_mem a hb))
      (hstep s a hs (hq a (List.mem_cons_self a l)))

theorem str_empty_append (s : String) : "" ++ s = s := by
  cases s with
  | mk d => rfl

/-! ## Frame lemmas for the engine's internal steps -/

theorem upsertConflict_rooms (et : String) (eid : Nat) (fieldName source : String)
    (nv cv : Int) (now : Nat) (db : DB) :
    (upsertConflict et eid fieldName source nv cv now db).rooms = db.rooms := by
  unfold upsertConflict
  cases db.conflicts.find? (openConflictPred et eid fieldName) <;> rfl

theorem upsertConflict_roomMappings (et : String) (eid : Nat) (fieldName source : String)
    (nv cv : Int) (now : Nat) (db : DB) :
    (upsertConflict et eid fieldName source nv cv now db).roomMappings = db.roomMappings := by
  unfold upsertConflict
  cases db.conflicts.find? (openConflictPred et eid fieldName) <;> rfl

theorem upsertConflict_hotelMappings (et : String) (eid : Nat) (fieldName source : String)
    (nv cv : Int) (now : Nat) (db : DB) :
    (upsertConflict et eid fieldName source nv cv now db).hotelMappings = db.hotelMappings := by
  unfold upsertConflict
  cases db.conflicts.find? (openConflictPred et eid fieldName) <;> rfl

theorem detect_rooms (r : Room) (source : String) (inc : StaysRoom) (now : Nat) (db : DB) :
    (detectAndRecordConflicts r source inc now db).rooms = db.rooms := by
  unfold detectAndRecordConflicts
  cases r.maxOccupancy with
  | none => rfl
  | some v =>
    cases inc.max_occupancy with
    | none => rfl
    | some w =>
      by_cases h : (v != 0 && w != 0 && v != w) = true
      · simp only [h, if_true]; exact upsertConflict_rooms ..
      · simp only [eq_false_of_ne_true h, Bool.false_eq_true, if_false]

theorem detect_roomMappings (r : Room) (source : String) (inc : StaysRoom) (now : Nat)
    (db : DB) :
    (detectAndRecordConflicts r source inc now db).roomMappings = db.roomMappings := by
  unfold detectAndRecordConflicts
  cases r.maxOccupancy with
  | none => rfl
  | some v =>
    cases inc.max_occupancy with
    | none => rfl
    | some w =>
      by_cases h : (v != 0 && w != 0 && v != w) = true
      · simp only [h, if_true]; exact upsertConflict_roomMappings ..
      · simp only [eq_false_of_ne_true h, Bool.false_eq_true, if_false]

theorem detect_hotelMappings (r : Room) (source : String) (inc : StaysRoom) (now : Nat)
    (db : DB) :
    (detectAndRecordConflicts r source inc now db).hotelMappings = db.hotelMappings := by
  unfold detectAndRecordConflicts
  cases r.maxOccupancy with
  | none => rfl
  | some v =>
    cases inc.max_occupancy with
    | none => rfl
    | some w =>
      by_cases h : (v != 0 && w != 0 && v != w) = true
      · simp only [h, if_true]; exact upsertConflict_hotelMappings ..
      · simp only [eq_false_of_ne_true h, Bool.false_eq_true, if_false]

theorem enrich_rooms (roomId : Nat) (source fieldName : String) (content : EnrichContent)
    (quality : String) (now : Nat) (db : DB) :
    (upsertRoomEnrichment roomId source fieldName content quality now db).rooms = db.rooms := by
  unfold upsertRoomEnrichment
  cases db.enrichments.find? (fun e =>
    e.roomId == roomId && e.source == source && e.fieldName == fieldName) <;> rfl

theorem enrich_roomMappings (roomId : Nat) (source fieldName : String)
    (content : EnrichContent) (quality : String) (now : Nat) (db : DB) :
    (upsertRoomEnrichment roomId source fieldName content quality now db).roomMappings =
      db.roomMappings := by
  unfold upsertRoomEnrichment
  cases db.enrichments.find? (fun e =>
    e.roomId == roomId && e.source == source && e.fieldName == fieldName) <;> rfl

theorem enrich_hotelMappings (roomId : Nat) (source fieldName : String)
    (content : EnrichContent) (quality : String) (now : Nat) (db : DB) :
    (upsertRoomEnrichment roomId source fieldName content quality now db).hotelMappings =
      db.hotelMappings := by
  unfold upsertRoomEnrichment
  cases db.enrichments.find? (fun e =>
    e.roomId == roomId && e.source == source && e.fieldName == fieldName) <;> rfl

theorem enrich_conflicts (roomId : Nat) (source fieldName : String)
    (content : EnrichContent) (quality : String) (now : Nat) (db : DB) :
    (upsertRoomEnrichment roomId source fieldName content quality now db).conflicts =
      db.conflicts := by
  unfold upsertRoomEnrichment
  cases db.enrichments.find? (fun e =>
    e.roomId == roomId && e.source == source && e.fieldName == fieldName) <;> rfl

theorem applyEnrichments_rooms (roomId : Nat) (source : String) (roomData : StaysRoom)
    (now : Nat) (db : DB) :
    (applyEnrichments roomId source roomData now db).rooms = db.rooms := by
  unfold applyEnrichments
  by_cases h1 : roomData.photos.length > 0 <;>
    by_cases h2 : roomData.amenities.length > 0 <;>
      simp [h1, h2, enrich_rooms]

theorem applyEnrichments_roomMappings (roomId : Nat) (source : String) (roomData : StaysRoom)
    (now : Nat) (db : DB) :
    (applyEnrichments roomId source roomData now db).roomMappings = db.roomMappings := by
  unfold applyEnrichments
  by_cases h1 : roomData.photos.length > 0 <;>
    by_cases h2 : roomData.amenities.length > 0 <;>
      simp [h1, h2, enrich_roomMappings]

theorem applyEnrichments_hotelMappings (roomId : Nat) (source : String)
    (roomData : StaysRoom) (now : Nat) (db : DB) :
    (applyEnrichments roomId source roomData now db).hotelMappings = db.hotelMappings := by
  unfold applyEnrichments
  by_cases h1 : roomData.photos.length > 0 <;>
    by_cases h2 : roomData.amenities.length > 0 <;>
      simp [h1, h2, enrich_hotelMappings]

theorem applyEnrichments_conflicts (roomId : Nat) (source : String) (roomData : StaysRoom)
    (now : Nat) (db : DB) :
    (applyEnrichments roomId source roomData now db).conflicts = db.conflicts := by
  unfold applyEnrichments
  by_cases h1 : roomData.photos.length > 0 <;>
    by_cases h2 : roomData.amenities.length > 0 <;>
      simp [h1, h2, enrich_conflicts]

theorem findOrCreateRoom_roomMappings (hm : HotelMapping) (roomData : StaysRoom) (db : DB) :
    (findOrCreateRoom hm roomData db).1.roomMappings = db.roomMappings := by
  unfold findOrCreateRoom
  cases db.rooms.find? (fun r => r.hotelId == hm.hotelId && r.name == roomData.name) <;> rfl

theorem findOrCreateRoom_conflicts (hm : HotelMapping) (roomData : StaysRoom) (db : DB) :
    (findOrCreateRoom hm roomData db).1.conflicts = db.conflicts := by
  unfold findOrCreateRoom
  cases db.rooms.find? (fun r => r.hotelId == hm.hotelId && r.name == roomData.name) <;> rfl

theorem findOrCreateRoom_hotelMappings (hm : HotelMapping) (roomData : StaysRoom) (db : DB) :
    (findOrCreateRoom hm roomData db).1.hotelMappings = db.hotelMappings := by
  unfold findOrCreateRoom
  cases db.rooms.find? (fun r => r.hotelId == hm.hotelId && r.name == roomData.name) <;> rfl

theorem mapRoomExisting_hotelMappings (em : RoomMapping) (roomData : StaysRoom)
    (confidence : Rat) (mappingType : MappingType) (qualityScore now : Nat) (db : DB) :
    (mapRoomExisting em roomData confidence mappingType qualityScore now db).hotelMappings =
      db.hotelMappings := rfl

theorem mapRoomExisting_conflicts (em : RoomMapping) (roomData : StaysRoom)
    (confidence : Rat) (mappingType : MappingType) (qualityScore now : Nat) (db : DB) :
    (mapRoomExisting em roomData confidence mappingType qualityScore now db).conflicts =
      db.conflicts := rfl

theorem mapRoomExisting_rooms (em : RoomMapping) (roomData : StaysRoom)
    (confidence : Rat) (mappingType : MappingType) (qualityScore now : Nat) (db : DB) :
    (mapRoomExisting em roomData confidence mappingType qualityScore now db).rooms =
      db.rooms := rfl

theorem createRoomMappingRow_conflicts (hm : HotelMapping) (roomSourceId source : String)
    (roomData : StaysRoom) (confidence : Rat) (mappingType : MappingType)
    (isPrimary : Bool) (qualityScore now : Nat) (pr : DB × Room) :
    (createRoomMappingRow hm roomSourceId source roomData confidence mappingType isPrimary
      qualityScore now pr).conflicts = pr.1.conflicts := rfl

theorem mapRoom_hotelMappings (hotelSourceId roomSourceId source : String)
    (roomData : StaysRoom) (options : RoomMappingOptions) (now : Nat) (db : DB) :
    (mapRoom hotelSourceId roomSourceId source roomData options now db).hotelMappings =
      db.hotelMappings := by
  unfold mapRoom
  split
  · rfl
  · split
    · split <;>
        simp [applyEnrichments_hotelMappings, detect_hotelMappings,
          mapRoomExisting_hotelMappings]
    · simp [applyEnrichments_hotelMappings, detect_hotelMappings,
        findOrCreateRoom_hotelMappings, createRoomMappingRow]

/-- Case analysis of `detectAndRecordConflicts`: either a no-op, or exactly
one `upsertConflict` under the truthiness guard. -/
theorem detect_cases (r : Room) (source : String) (inc : StaysRoom) (now : Nat) (db : DB) :
    detectAndRecordConflicts r source inc now db = db ∨
    ∃ v w, r.maxOccupancy = some v ∧ inc.max_occupancy = some w ∧
      (v != 0 && w != 0 && v != w) = true ∧
      detectAndRecordConflicts r source inc now db =
        upsertConflict "room" r.id "maxOccupancy" source w v now db := by
  unfold detectAndRecordConflicts
  cases hv : r.maxOccupancy with
  | none => exact Or.inl rfl
  | some v =>
    cases hw : inc.max_occupancy with
    | none => exact Or.inl rfl
    | some w =>
      by_cases h : (v != 0 && w != 0 && v != w) = true
      · exact Or.inr ⟨v, w, rfl, rfl, h, by simp [h]⟩
      · exact Or.inl (by simp only [eq_false_of_ne_true h, Bool.false_eq_true, if_false])

/-- Conflict-table effect of the detect-then-enrich suffix of `mapRoom`. -/
theorem post_conflicts_cases (roomId : Nat) (cr : Room) (source : String)
    (roomData : StaysRoom) (now : Nat) (db1 db : DB) (hc : db1.conflicts = db.conflicts) :
    (applyEnrichments roomId source roomData now
        (detectAndRecordConflicts cr source roomData now db1)).conflicts = db.conflicts ∨
    ∃ (eid : Nat) (w v : Int) (dbm : DB), dbm.conflicts = db.conflicts ∧
      (applyEnrichments roomId source roomData now
          (detectAndRecordConflicts cr source roomData now db1)).conflicts =
        (upsertConflict "room" eid "maxOccupancy" source w v now dbm).conflicts := by
  rcases detect_cases cr source roomData now db1 with hd | ⟨v, w, _, _, _, hd⟩
  · exact Or.inl (by rw [applyEnrichments_conflicts, hd, hc])
  · exact Or.inr ⟨cr.id, w, v, db1, hc, by rw [applyEnrichments_conflicts, hd]⟩

/-- `mapRoom` leaves the conflict table unchanged, or changes it through
exactly one `upsertConflict` on a datastore carrying the same conflicts. -/
theorem mapRoom_conflicts_cases (hotelSourceId roomSourceId source : String)
    (roomData : StaysRoom) (options : RoomMappingOptions) (now : Nat) (db : DB) :
    (mapRoom hotelSourceId roomSourceId source roomData options now db).conflicts =
      db.conflicts ∨
    ∃ (eid : Nat) (w v : Int) (dbm : DB), dbm.conflicts = db.conflicts ∧
      (mapRoom hotelSourceId roomSourceId source roomData options now db).conflicts =
        (upsertConflict "room" eid "maxOccupancy" source w v now dbm).conflicts := by
  unfold mapRoom
  split
  · exact Or.inl rfl
  · split
    · split
      · exact post_conflicts_cases _ _ _ _ _ _ db (mapRoomExisting_conflicts ..)
      · exact Or.inl (by rw [applyEnrichments_conflicts, mapRoomExisting_conflicts])
    · refine post_conflicts_cases _ _ _ _ _ _ db ?_
      rw [createRoomMappingRow_conflicts]
      exact findOrCreateRoom_conflicts ..

/-- `upsertConflict` preserves at-most-one-open-conflict-per-key. -/
theorem upsert_openUnique (et : String) (eid : Nat) (fieldName source : String)
    (nv cv : Int) (now : Nat) (db : DB) (h : OpenUnique db.conflicts) :
    OpenUnique (upsertConflict et eid fieldName source nv cv now db).conflicts := by
  unfold upsertConflict
  cases hf : db.conflicts.find? (openConflictPred et eid fieldName) with
  | some existing =>
    intro et2 eid2 f2
    simp only
    have hpres : ∀ c : MappingConflict,
        openConflictPred et2 eid2 f2
          (if c.id == existing.id then
            { c with conflictingSources :=
                upsertEntry existing.conflictingSources source nv now }
          else c) = openConflictPred et2 eid2 f2 c := by
      intro c
      by_cases hid : (c.id == existing.id) = true <;> simp [hid, openConflictPred]
    rw [filter_map_pres _ _ hpres, List.length_map]
    exact h et2 eid2 f2
  | none =>
    intro et2 eid2 f2
    simp only [List.filter_append, List.length_append]
    by_cases hk : (openConflictPred et2 eid2 f2
        ⟨db.nextId, et, eid, fieldName, [⟨"internal", cv, now⟩, ⟨source, nv, now⟩],
         ConflictStatus.Open, none, none, now⟩) = true
    · have hkeys : et = et2 ∧ eid = eid2 ∧ fieldName = f2 := by
        simp only [openConflictPred, Bool.and_eq_true, beq_iff_eq] at hk
        exact ⟨hk.1.1.1, hk.1.1.2, hk.1.2⟩
      obtain ⟨h1, h2, h3⟩ := hkeys
      subst h1; subst h2; subst h3
      rw [find?_none_filter_nil _ _ hf]
      simp [hk]
    · simp only [List.filter_cons, hk, Bool.false_eq_true, if_false, List.filter_nil,
        List.length_nil, Nat.add_zero]
      exact h et2 eid2 f2

/-- `detectAndRecordConflicts` is a no-op when the incoming occupancy is
falsy (absent, NaN or zero). -/
theorem detect_incoming_falsy (r : Room) (source : String) (inc : StaysRoom) (now : Nat)
    (db : DB) (h : optIntTruthy inc.max_occupancy = false) :
    detectAndRecordConflicts r source inc now db = db := by
  unfold detectAndRecordConflicts
  cases hv : r.maxOccupancy with
  | none => rfl
  | some v =>
    cases hw : inc.max_occupancy with
    | none => rfl
    | some w =>
      rw [hw] at h
      simp only [optIntTruthy] at h
      simp [h]

/-! ## The claims -/

/-- C1: an existing verified RoomMapping keeps its confidence and
mappingType under a subsequent `mapRoom` for the same key, while
sourceData, qualityScore and lastSyncedAt still refresh; a non-verified
existing mapping additionally has confidence and mappingType overwritten
with the call's supplied-or-default values. -/
theorem C1_verified_mapping_protection
    (hotelSourceId roomSourceId source : String) (roomData : StaysRoom)
    (options : RoomMappingOptions) (now : Nat) (db : DB) (hm : HotelMapping)
    (em : RoomMapping)
    (hHM : db.hotelMappings.find? (hotelMappingPred source hotelSourceId) = some hm)
    (hEM : db.roomMappings.find? (roomMappingPred source roomSourceId hm.id) = some em) :
    (em.mappingType = MappingType.verified →
      (mapRoom hotelSourceId roomSourceId source roomData options now db).roomMappings =
        db.roomMappings.map (fun m =>
          if m.id == em.id then
            { m with sourceData := roomData, lastSyncedAt := now,
                     qualityScore := calculateQualityScore roomData }
          else m)) ∧
    (em.mappingType ≠ MappingType.verified →
      (mapRoom hotelSourceId roomSourceId source roomData options now db).roomMappings =
        db.roomMappings.map (fun m =>
          if m.id == em.id then
            { m with sourceData := roomData, lastSyncedAt := now,
                     qualityScore := calculateQualityScore roomData,
                     confidence := options.confidence.getD (0.8 : Rat),
                     mappingType := options.mappingType.getD MappingType.automatic }
          else m)) := by
  have hmr : (mapRoom hotelSourceId roomSourceId source roomData options now db).roomMappings =
      (mapRoomExisting em roomData (options.confidence.getD (0.8 : Rat))
        (options.mappingType.getD MappingType.automatic)
        (calculateQualityScore roomData) now db).roomMappings := by
    simp only [mapRoom, hHM, hEM]
    cases hC : db.rooms.find? (fun r => r.id == em.roomId) <;>
      simp [applyEnrichments_roomMappings, detect_roomMappings]
  constructor
  · intro hv
    rw [hmr]
    simp [mapRoomExisting, applyMappingUpdate, hv]
  · intro hv
    have hb : (em.mappingType != MappingType.verified) = true := bne_iff_ne.mpr hv
    rw [hmr]
    simp [mapRoomExisting, applyMappingUpdate, hb]

theorem C1_witness :
    (mapRoom "h1" "r1" "s" c4Room {} 9 wDBVerified).roomMappings =
      wDBVerified.roomMappings.map (fun m =>
        if m.id == wRMVerified.id then
          { m with sourceData := c4Room, lastSyncedAt := 9,
                   qualityScore := calculateQualityScore c4Room }
        else m) ∧
    (mapRoom "h1" "r1" "s" c4Room {} 9 wDB).roomMappings =
      wDB.roomMappings.map (fun m =>
        if m.id == wRMAuto.id then
          { m with sourceData := c4Room, lastSyncedAt := 9,
                   qualityScore := calculateQualityScore c4Room,
                   confidence := (RoomMappingOptions.confidence {}).getD (0.8 : Rat),
                   mappingType := (RoomMappingOptions.mappingType {}).getD
                     MappingType.automatic }
        else m) :=
  ⟨(C1_verified_mapping_protection "h1" "r1" "s" c4Room {} 9 wDBVerified wHM wRMVerified
      rfl rfl).1 rfl,
   (C1_verified_mapping_protection "h1" "r1" "s" c4Room {} 9 wDB wHM wRMAuto
      rfl rfl).2 (by decide)⟩

/-- C3: `resolveConflict` with `apply_source` on an existing room conflict
for `maxOccupancy`: if the named source has an entry, its recorded value is
written into the canonical room's field and the conflict is marked
resolved with the strategy and a timestamp; if the named source has no
entry, the call fails with InvalidInput (`sourceNotFound`) and the rolled
back datastore is unchanged. -/
theorem C3_resolve_apply_source (conflictId : Nat) (s : String) (now : Nat) (db : DB)
    (c : MappingConflict)
    (hc : db.conflicts.find? (fun x => x.id == conflictId) = some c)
    (hfield : c.fieldName = "maxOccupancy") (hent : c.entityType = "room")
    (hs : s ≠ "") :
    (∀ e, c.conflictingSources.find? (fun x => x.source == s) = some e →
      resolveConflict conflictId Strategy.apply_source (some s) now db =
        .ok { db with
                rooms := db.rooms.map (fun r =>
                  if r.id == c.entityId then { r with maxOccupancy := some e.value } else r)
                conflicts := db.conflicts.map (fun x =>
                  if x.id == conflictId then
                    { x with status := ConflictStatus.Resolved,
                             resolution := some Strategy.apply_source,
                             resolvedAt := some now }
                  else x) }) ∧
    (c.conflictingSources.find? (fun x => x.source == s) = none →
      resolveConflict conflictId Strategy.apply_source (some s) now db =
        .error ResolveError.sourceNotFound ∧
      runResolveConflict conflictId Strategy.apply_source (some s) now db = db) := by
  have hpred : ∀ x : ConflictEntry,
      (some x.source == some s) = (x.source == s) := by
    intro x; cases hxs : x.source == s <;> simp_all
  constructor
  · intro e he
    simp only [resolveConflict, hc]
    have hg : (Strategy.apply_source == Strategy.apply_source &&
        optStrTruthy (some s)) = true := by simp [optStrTruthy, hs]
    rw [hg]
    rw [find?_ext _ _ hpred, he]
    simp [hent, hfield, Except.map]
  · intro hn
    have h1 : resolveConflict conflictId Strategy.apply_source (some s) now db =
        .error ResolveError.sourceNotFound := by
      simp only [resolveConflict, hc]
      have hg : (Strategy.apply_source == Strategy.apply_source &&
          optStrTruthy (some s)) = true := by simp [optStrTruthy, hs]
      rw [hg]
      rw [find?_ext _ _ hpred, hn]
      simp [Except.map]
    exact ⟨h1, by unfold runResolveConflict; rw [h1]⟩

theorem C3_witness :
    (resolveConflict 40 Strategy.apply_source (some "provider_b") 7 wDBConflict =
      .ok { wDBConflict with
              rooms := wDBConflict.rooms.map (fun r =>
                if r.id == wConflict.entityId then
                  { r with maxOccupancy := some (4 : Int) }
                else r)
              conflicts := wDBConflict.conflicts.map (fun x =>
                if x.id == 40 then
                  { x with status := ConflictStatus.Resolved,
                           resolution := some Strategy.apply_source,
                           resolvedAt := some 7 }
                else x) }) ∧
    (resolveConflict 40 Strategy.apply_source (some "provider_x") 7 wDBConflict =
      .error ResolveError.sourceNotFound ∧
     runResolveConflict 40 Strategy.apply_source (some "provider_x") 7 wDBConflict =
      wDBConflict) :=
  ⟨(C3_resolve_apply_source 40 "provider_b" 7 wDBConflict wConflict rfl rfl rfl
      (by decide)).1 ⟨"provider_b", 4, 1⟩ rfl,
   (C3_resolve_apply_source 40 "provider_x" 7 wDBConflict wConflict rfl rfl rfl
      (by decide)).2 rfl⟩

/-- C10: `resolveConflict` with `apply_source` but no `sourceToApply` does
not fail and mutates no entity field: it only marks the conflict resolved
with the strategy and timestamp, exactly like `keep_internal` up to the
recorded resolution value. -/
theorem C10_apply_source_without_source (conflictId : Nat) (now : Nat) (db : DB)
    (c : MappingConflict)
    (hc : db.conflicts.find? (fun x => x.id == conflictId) = some c) :
    resolveConflict conflictId Strategy.apply_source none now db =
      .ok { db with conflicts := db.conflicts.map (fun x =>
              if x.id == conflictId then
                { x with status := ConflictStatus.Resolved,
                         resolution := some Strategy.apply_source,
                         resolvedAt := some now }
              else x) } ∧
    resolveConflict conflictId Strategy.keep_internal none now db =
      .ok { db with conflicts := db.conflicts.map (fun x =>
              if x.id == conflictId then
                { x with status := ConflictStatus.Resolved,
                         resolution := some Strategy.keep_internal,
                         resolvedAt := some now }
              else x) } := by
  constructor <;> simp [resolveConflict, hc, optStrTruthy, Except.map]

theorem C10_witness :
    resolveConflict 40 Strategy.apply_source none 7 wDBConflict =
      .ok { wDBConflict with conflicts := wDBConflict.conflicts.map (fun x =>
              if x.id == 40 then
                { x with status := ConflictStatus.Resolved,
                         resolution := some Strategy.apply_source,
                         resolvedAt := some 7 }
              else x) } ∧
    resolveConflict 40 Strategy.keep_internal none 7 wDBConflict =
      .ok { wDBConflict with conflicts := wDBConflict.conflicts.map (fun x =>
              if x.id == 40 then
                { x with status := ConflictStatus.Resolved,
                         resolution := some Strategy.keep_internal,
                         resolvedAt := some 7 }
              else x) } :=
  C10_apply_source_without_source 40 7 wDBConflict wConflict rfl

/-- C8: the quality score is always in [0, 100]; a room with only a
nonempty name and a non-empty photo list scores exactly 30; a room with
all seven contributing fields present scores exactly 100. -/
theorem C8_quality_score :
    (∀ room : StaysRoom, calculateQualityScore room ≤ 100) ∧
    (∀ room : StaysRoom, room.name ≠ "" → optIntTruthy room.max_occupancy = false →
      room.beds = [] → room.photos ≠ [] → room.amenities = [] →
      optStrTruthy room.attributes.cls = false →
      optStrTruthy room.attributes.view = false →
      room.rates = [] → calculateQualityScore room = 30) ∧
    (∀ room : StaysRoom, room.name ≠ "" → optIntTruthy room.max_occupancy = true →
      room.beds ≠ [] → room.photos ≠ [] → room.amenities ≠ [] →
      (optStrTruthy room.attributes.cls = true ∨
        optStrTruthy room.attributes.view = true) →
      room.rates ≠ [] → calculateQualityScore room = 100) := by
  refine ⟨fun room => Nat.min_le_right _ _, ?_, ?_⟩
  · intro room h1 h2 h3 h4 h5 h6 h7 h8
    simp [calculateQualityScore, h1, h2, h3, h5, h6, h7, h8, List.length_pos, h4]
  · intro room h1 h2 h3 h4 h5 h6 h7
    rcases h6 with h6 | h6 <;>
      simp [calculateQualityScore, h1, h2, h3, h4, h5, h6, h7, List.length_pos]

theorem C8_witness :
    calculateQualityScore ⟨"X", none, [], [⟨"u"⟩], [], {}, []⟩ ≤ 100 ∧
    calculateQualityScore ⟨"X", none, [], [⟨"u"⟩], [], {}, []⟩ = 30 ∧
    calculateQualityScore ⟨"X", some 2, [⟨.king, some 1⟩], [⟨"u"⟩], [⟨"wifi", ""⟩],
      ⟨some "Deluxe", none⟩, [defaultRate 0 none none]⟩ = 100 :=
  ⟨C8_quality_score.1 _,
   C8_quality_score.2.1 _ (by decide) rfl rfl (by decide) rfl rfl rfl rfl,
   C8_quality_score.2.2 _ (by decide) rfl (by decide) (by decide) (by decide)
     (Or.inl rfl) (by decide)⟩

/-- C9: `detectAndRecordConflicts` reaches its conflict upsert exactly when
the canonical room's maxOccupancy and the incoming max_occupancy are both
present and non-zero and differ; otherwise it is a no-op, and at the
`mapRoom` level a falsy incoming occupancy leaves the conflict table
unchanged. -/
theorem C9_conflict_guard :
    (∀ (internalRoom : Room) (source : String) (incomingData : StaysRoom) (now : Nat)
        (db : DB),
      ¬(∃ v w : Int, internalRoom.maxOccupancy = some v ∧ v ≠ 0 ∧
          incomingData.max_occupancy = some w ∧ w ≠ 0 ∧ v ≠ w) →
      detectAndRecordConflicts internalRoom source incomingData now db = db) ∧
    (∀ (internalRoom : Room) (source : String) (incomingData : StaysRoom) (now : Nat)
        (db : DB) (v w : Int),
      internalRoom.maxOccupancy = some v → v ≠ 0 → incomingData.max_occupancy = some w →
      w ≠ 0 → v ≠ w →
      detectAndRecordConflicts internalRoom source incomingData now db =
        upsertConflict "room" internalRoom.id "maxOccupancy" source w v now db) ∧
    (∀ (hotelSourceId roomSourceId source : String) (roomData : StaysRoom)
        (options : RoomMappingOptions) (now : Nat) (db : DB),
      optIntTruthy roomData.max_occupancy = false →
      (mapRoom hotelSourceId roomSourceId source roomData options now db).conflicts =
        db.conflicts) := by
  refine ⟨?_, ?_, ?_⟩
  · intro internalRoom source incomingData now db h
    rcases detect_cases internalRoom source incomingData now db with hd | ⟨v, w, hv, hw, hg, _⟩
    · exact hd
    · exfalso
      apply h
      simp only [Bool.and_eq_true, bne_iff_ne] at hg
      exact ⟨v, w, hv, hg.1.1, hw, hg.1.2, hg.2⟩
  · intro internalRoom source incomingData now db v w hv hz hw hwz hne
    have hg : (v != 0 && w != 0 && v != w) = true := by
      simp only [Bool.and_eq_true, bne_iff_ne]
      exact ⟨⟨hz, hwz⟩, hne⟩
    unfold detectAndRecordConflicts
    rw [hv, hw]
    simp [hg]
  · intro hotelSourceId roomSourceId source roomData options now db h
    unfold mapRoom
    split
    · rfl
    · split
      · split
        · rw [applyEnrichments_conflicts, detect_incoming_falsy _ _ _ _ _ h,
            mapRoomExisting_conflicts]
        · rw [applyEnrichments_conflicts, mapRoomExisting_conflicts]
      · rw [applyEnrichments_conflicts, detect_incoming_falsy _ _ _ _ _ h,
          createRoomMappingRow_conflicts]
        exact findOrCreateRoom_conflicts ..

theorem C9_witness :
    detectAndRecordConflicts wRoom "s" c4Room 0 wDB = wDB ∧
    detectAndRecordConflicts wRoom "s" { c4Room with max_occupancy := some 3 } 0 wDB =
      upsertConflict "room" wRoom.id "maxOccupancy" "s" 3 2 0 wDB ∧
    (mapRoom "h1" "r1" "s" c4Room {} 0 wDB).conflicts = wDB.conflicts :=
  ⟨C9_conflict_guard.1 wRoom "s" c4Room 0 wDB
      (by rintro ⟨v, w, _, _, hw, _⟩; exact Option.noConfusion hw),
   C9_conflict_guard.2.1 wRoom "s" { c4Room with max_occupancy := some 3 } 0 wDB 2 3
      rfl (by decide) rfl (by decide) (by decide),
   C9_conflict_guard.2.2 "h1" "r1" "s" c4Room {} 0 wDB rfl⟩

/-- C6 (code bug evaluation): after a hotel wrapper closes, the parser's
`currentHotelId` is not cleared (the clear sits behind the handler's early
`if (!currentRoom) return`), so a room emitted after the wrapper close is
delivered with the stale hotel id `"H1"` instead of no hotel id. -/
theorem C6_stale_hotel_id :
    (runParser 0 c6Events).map EmittedRoom.hotelId = [some "H1", some "H1"] ∧
    (runParser 0 c6Events).map (fun er => er.room.name) = ["A", "B"] := by
  constructor <;> rfl

/-- C4 counterexample: on a datastore with no parent HotelMapping, two
identical `mapRoom` calls produce zero RoomMapping rows, not exactly one. -/
theorem C4_counterexample :
    (mapRoom "h1" "r1" "s" c4Room {} 0
      (mapRoom "h1" "r1" "s" c4Room {} 0 emptyDB)).roomMappings = [] := rfl

theorem applyMappingUpdate_pred (source roomSourceId : String) (hmId : Nat)
    (em : RoomMapping) (roomData : StaysRoom) (confidence : Rat)
    (mappingType : MappingType) (qualityScore now : Nat) :
    ∀ m, roomMappingPred source roomSourceId hmId
        (applyMappingUpdate em roomData confidence mappingType qualityScore now m) =
      roomMappingPred source roomSourceId hmId m := by
  intro m
  unfold applyMappingUpdate roomMappingPred
  by_cases h1 : (m.id == em.id) = true <;>
    by_cases h2 : (em.mappingType != MappingType.verified) = true <;>
      simp [h1, h2]

theorem applyMappingUpdate_self_q (em : RoomMapping) (roomData : StaysRoom)
    (confidence : Rat) (mappingType : MappingType) (qualityScore now : Nat)
    (m : RoomMapping) (hid : (m.id == em.id) = true) :
    (applyMappingUpdate em roomData confidence mappingType qualityScore now m).qualityScore =
      qualityScore := by
  unfold applyMappingUpdate
  by_cases h2 : (em.mappingType != MappingType.verified) = true <;> simp [hid, h2]

/-- `mapRoom` on an existing mapping maps the row update over the table. -/
theorem mapRoom_roomMappings_existing (hotelSourceId roomSourceId source : String)
    (roomData : StaysRoom) (options : RoomMappingOptions) (now : Nat) (db : DB)
    (hm : HotelMapping) (em : RoomMapping)
    (hHM : db.hotelMappings.find? (hotelMappingPred source hotelSourceId) = some hm)
    (hEM : db.roomMappings.find? (roomMappingPred source roomSourceId hm.id) = some em) :
    (mapRoom hotelSourceId roomSourceId source roomData options now db).roomMappings =
      db.roomMappings.map (applyMappingUpdate em roomData
        (options.confidence.getD (0.8 : Rat)) (options.mappingType.getD MappingType.automatic)
        (calculateQualityScore roomData) now) := by
  simp only [mapRoom, hHM, hEM]
  cases hC : db.rooms.find? (fun r => r.id == em.roomId) <;>
    simp [applyEnrichments_roomMappings, detect_roomMappings, mapRoomExisting]

/-- `mapRoom` with no existing mapping appends exactly one new row. -/
theorem mapRoom_roomMappings_create (hotelSourceId roomSourceId source : String)
    (roomData : StaysRoom) (options : RoomMappingOptions) (now : Nat) (db : DB)
    (hm : HotelMapping)
    (hHM : db.hotelMappings.find? (hotelMappingPred source hotelSourceId) = some hm)
    (hEM : db.roomMappings.find? (roomMappingPred source roomSourceId hm.id) = none) :
    (mapRoom hotelSourceId roomSourceId source roomData options now db).roomMappings =
      db.roomMappings ++
        [{ id := (findOrCreateRoom hm roomData db).1.nextId
           roomId := (findOrCreateRoom hm roomData db).2.id, hotelMappingId := hm.id
           source, sourceId := roomSourceId, sourceData := roomData
           confidence := options.confidence.getD (0.8 : Rat)
           mappingType := options.mappingType.getD MappingType.automatic
           isPrimary := options.isPrimary.getD false, lastSyncedAt := now
           qualityScore := calculateQualityScore roomData }] := by
  simp only [mapRoom, hHM, hEM]
  rw [applyEnrichments_roomMappings, detect_roomMappings]
  simp [createRoomMappingRow, findOrCreateRoom_roomMappings]

/-- C2: at most one open conflict exists per (entityType, entityId,
fieldName) and `mapRoom` preserves this; merging into an existing open
conflict replaces/appends the incoming source's entry in place without
creating a row (so the `internal` entry is seeded only at creation); and
two same-source `mapRoom` calls with different occupancies yield a single
open conflict whose entry for that source holds only the latest value. -/
theorem C2_conflict_upsert_invariant :
    (∀ (hotelSourceId roomSourceId source : String) (roomData : StaysRoom)
        (options : RoomMappingOptions) (now : Nat) (db : DB),
      OpenUnique db.conflicts →
      OpenUnique (mapRoom hotelSourceId roomSourceId source roomData options
        now db).conflicts) ∧
    (∀ (et : String) (eid : Nat) (fieldName source : String) (nv cv : Int) (now : Nat)
        (db : DB) (c : MappingConflict),
      db.conflicts.find? (openConflictPred et eid fieldName) = some c →
      (upsertConflict et eid fieldName source nv cv now db).conflicts =
        db.conflicts.map (fun x =>
          if x.id == c.id then
            { x with conflictingSources := upsertEntry c.conflictingSources source nv now }
          else x)) ∧
    (∀ (et : String) (eid : Nat) (fieldName source : String) (nv cv : Int) (now : Nat)
        (db : DB),
      db.conflicts.find? (openConflictPred et eid fieldName) = none →
      (upsertConflict et eid fieldName source nv cv now db).conflicts =
        db.conflicts ++
          [⟨db.nextId, et, eid, fieldName, [⟨"internal", cv, now⟩, ⟨source, nv, now⟩],
            ConflictStatus.Open, none, none, now⟩]) ∧
    ((mapRoom "h1" "r1" "s" { c4Room with max_occupancy := some 4 } {} 6
        (mapRoom "h1" "r1" "s" { c4Room with max_occupancy := some 3 } {} 5 wDB)).conflicts =
      [⟨100, "room", 20, "maxOccupancy", [⟨"internal", 2, 5⟩, ⟨"s", 4, 6⟩],
        ConflictStatus.Open, none, none, 5⟩]) := by
  refine ⟨?_, ?_, ?_, ?_⟩
  · intro hotelSourceId roomSourceId source roomData options now db h
    rcases mapRoom_conflicts_cases hotelSourceId roomSourceId source roomData options now db
      with he | ⟨eid, w, v, dbm, hdc, he⟩
    · rw [he]; exact h
    · rw [he]
      exact upsert_openUnique _ _ _ _ _ _ _ dbm (by rw [hdc]; exact h)
  · intro et eid fieldName source nv cv now db c hc
    simp [upsertConflict, hc]
  · intro et eid fieldName source nv cv now db hc
    simp [upsertConflict, hc]
  · rfl

theorem C2_witness :
    OpenUnique (mapRoom "h1" "r1" "s" { c4Room with max_occupancy := some 3 } {} 5
      wDB).conflicts ∧
    (upsertConflict "room" 20 "maxOccupancy" "s" 9 2 3 wDBConflict).conflicts =
      wDBConflict.conflicts.map (fun x =>
        if x.id == wConflict.id then
          { x with conflictingSources := upsertEntry wConflict.conflictingSources "s" 9 3 }
        else x) ∧
    (upsertConflict "room" 99 "maxOccupancy" "s" 9 2 3 wDBConflict).conflicts =
      wDBConflict.conflicts ++
        [⟨wDBConflict.nextId, "room", 99, "maxOccupancy",
          [⟨"internal", 2, 3⟩, ⟨"s", 9, 3⟩], ConflictStatus.Open, none, none, 3⟩] :=
  ⟨C2_conflict_upsert_invariant.1 "h1" "r1" "s" { c4Room with max_occupancy := some 3 }
      {} 5 wDB (fun _ _ _ => Nat.zero_le 1),
   C2_conflict_upsert_invariant.2.1 "room" 20 "maxOccupancy" "s" 9 2 3 wDBConflict
      wConflict rfl,
   C2_conflict_upsert_invariant.2.2.1 "room" 99 "maxOccupancy" "s" 9 2 3 wDBConflict rfl⟩

/-- C4 (amended): when the parent HotelMapping exists and the datastore
holds at most one RoomMapping row for the key, two `mapRoom` calls with
identical arguments leave exactly one row for the key, and the second call
does not change its qualityScore. -/
theorem C4_idempotent_mapRoom (hotelSourceId roomSourceId source : String)
    (roomData : StaysRoom) (options : RoomMappingOptions) (now1 now2 : Nat) (db : DB)
    (hm : HotelMapping)
    (hHM : db.hotelMappings.find? (hotelMappingPred source hotelSourceId) = some hm)
    (hU : (db.roomMappings.filter (roomMappingPred source roomSourceId hm.id)).length ≤ 1) :
    (((mapRoom hotelSourceId roomSourceId source roomData options now2
          (mapRoom hotelSourceId roomSourceId source roomData options now1
            db)).roomMappings.filter
        (roomMappingPred source roomSourceId hm.id)).length = 1) ∧
    ((mapRoom hotelSourceId roomSourceId source roomData options now2
          (mapRoom hotelSourceId roomSourceId source roomData options now1
            db)).roomMappings.find?
        (roomMappingPred source roomSourceId hm.id)).map RoomMapping.qualityScore =
      ((mapRoom hotelSourceId roomSourceId source roomData options now1
            db).roomMappings.find?
          (roomMappingPred source roomSourceId hm.id)).map RoomMapping.qualityScore := by
  set db1 := mapRoom hotelSourceId roomSourceId source roomData options now1 db with hdb1
  have key : ∃ m1,
      db1.roomMappings.find? (roomMappingPred source roomSourceId hm.id) = some m1 ∧
      m1.qualityScore = calculateQualityScore roomData ∧
      (db1.roomMappings.filter (roomMappingPred source roomSourceId hm.id)).length = 1 := by
    cases hM1 : db.roomMappings.find? (roomMappingPred source roomSourceId hm.id) with
    | some em =>
      have hR1 := mapRoom_roomMappings_existing hotelSourceId roomSourceId source roomData
        options now1 db hm em hHM hM1
      have hpres := applyMappingUpdate_pred source roomSourceId hm.id em roomData
        (options.confidence.getD (0.8 : Rat)) (options.mappingType.getD MappingType.automatic)
        (calculateQualityScore roomData) now1
      refine ⟨applyMappingUpdate em roomData (options.confidence.getD (0.8 : Rat))
        (options.mappingType.getD MappingType.automatic)
        (calculateQualityScore roomData) now1 em, ?_, ?_, ?_⟩
      · rw [hdb1, hR1, find?_map_pres _ _ hpres, hM1]
        rfl
      · exact applyMappingUpdate_self_q _ _ _ _ _ _ _ (beq_self_eq_true em.id)
      · rw [hdb1, hR1, filter_map_pres _ _ hpres, List.length_map]
        have hpos := find?_some_filter_pos _ db.roomMappings em hM1
        omega
    | none =>
      have hR1 := mapRoom_roomMappings_create hotelSourceId roomSourceId source roomData
        options now1 db hm hHM hM1
      set row : RoomMapping :=
        { id := (findOrCreateRoom hm roomData db).1.nextId
          roomId := (findOrCreateRoom hm roomData db).2.id, hotelMappingId := hm.id
          source, sourceId := roomSourceId, sourceData := roomData
          confidence := options.confidence.getD (0.8 : Rat)
          mappingType := options.mappingType.getD MappingType.automatic
          isPrimary := options.isPrimary.getD false, lastSyncedAt := now1
          qualityScore := calculateQualityScore roomData } with hrowdef
      have hrow : roomMappingPred source roomSourceId hm.id row = true := by
        simp [roomMappingPred, hrowdef]
      refine ⟨row, ?_, by rw [hrowdef], ?_⟩
      · rw [hdb1, hR1, find?_append_none _ _ _ hM1]
        simp [List.find?_cons, hrow]
      · rw [hdb1, hR1, List.filter_append, find?_none_filter_nil _ _ hM1]
        simp [hrow]
  obtain ⟨m1, hF1, hq1, hL1⟩ := key
  have hHM1 : db1.hotelMappings.find? (hotelMappingPred source hotelSourceId) = some hm := by
    rw [hdb1, mapRoom_hotelMappings]
    exact hHM
  have hR2 := mapRoom_roomMappings_existing hotelSourceId roomSourceId source roomData
    options now2 db1 hm m1 hHM1 hF1
  have hpres2 := applyMappingUpdate_pred source roomSourceId hm.id m1 roomData
    (options.confidence.getD (0.8 : Rat)) (options.mappingType.getD MappingType.automatic)
    (calculateQualityScore roomData) now2
  constructor
  · rw [hR2, filter_map_pres _ _ hpres2, List.length_map]
    exact hL1
  · rw [hR2, find?_map_pres _ _ hpres2, hF1]
    simp only [Option.map_some']
    rw [applyMappingUpdate_self_q _ _ _ _ _ _ _ (beq_self_eq_true m1.id), hq1]

theorem C4_witness :
    (((mapRoom "h1" "r1" "s" c4Room {} 6
          (mapRoom "h1" "r1" "s" c4Room {} 5 wDB)).roomMappings.filter
        (roomMappingPred "s" "r1" wHM.id)).length = 1) ∧
    ((mapRoom "h1" "r1" "s" c4Room {} 6
          (mapRoom "h1" "r1" "s" c4Room {} 5 wDB)).roomMappings.find?
        (roomMappingPred "s" "r1" wHM.id)).map RoomMapping.qualityScore =
      ((mapRoom "h1" "r1" "s" c4Room {} 5 wDB).roomMappings.find?
          (roomMappingPred "s" "r1" wHM.id)).map RoomMapping.qualityScore :=
  C4_idempotent_mapRoom "h1" "r1" "s" c4Room {} 5 6 wDB wHM rfl (by decide)

theorem applyRoomField_rates (room : StaysRoom) (name content : String) :
    (applyRoomField room name content).rates = room.rates := by
  unfold applyRoomField
  (repeat' split) <;> rfl

theorem applyRoomField_name_pres (room : StaysRoom) (name content : String)
    (h1 : (name == "Name") = false) (h2 : (name == "RoomName") = false) :
    (applyRoomField room name content).name = room.name := by
  unfold applyRoomField
  simp only [h1, h2, Bool.or_self, Bool.false_eq_true, if_false]
  (repeat' split) <;> rfl

/-- Effect of `onOpenTag` for a tag that is neither a room nor a rate
boundary, inside a room with a nonempty name: the open room keeps its name
and rate list, and the rate/output state is untouched. -/
theorem onOpenTag_inert (now : Nat) (st : ParserState) (nm : String)
    (attrs : List (String × String)) (room : StaysRoom)
    (hcr : st.currentRoom = some room) (hname : room.name ≠ "")
    (hr : isRoomTag nm = false) (hrt : isRateTag nm = false) :
    ∃ room', (onOpenTag now st nm attrs).currentRoom = some room' ∧
      room'.name = room.name ∧ room'.rates = room.rates ∧
      (onOpenTag now st nm attrs).currentRate = st.currentRate ∧
      (onOpenTag now st nm attrs).output = st.output := by
  have hne : (room.name == "") = false := beq_eq_false_iff_ne.mpr hname
  unfold onOpenTag
  simp only [hr, hrt, Bool.false_eq_true, if_false]
  by_cases hw : isWrapperTag nm = true <;>
    simp only [hw, Bool.false_eq_true, if_true, if_false] <;>
    · simp only [hcr]
      by_cases hb : (nm == "Bed") = true
      · simp only [hb, if_true]
        refine ⟨_, rfl, ?_, ?_, ?_, ?_⟩ <;> first | rfl | trivial
      · simp only [hb, Bool.false_eq_true, if_false]
        by_cases ht : (nm == "TypeRoom") = true
        · simp only [ht, if_true]
          cases han : attrT attrs "name" with
          | none => refine ⟨room, ?_, ?_, ?_, ?_, ?_⟩ <;> first | rfl | trivial
          | some tn =>
            simp only [hne, Bool.false_eq_true, if_false]
            refine ⟨room, ?_, ?_, ?_, ?_, ?_⟩ <;> first | rfl | trivial
        · simp only [ht, Bool.false_eq_true, if_false]
          by_cases hp : (nm == "Photo" || nm == "Image") = true
          · simp only [hp, if_true]
            cases hu : attrT attrs "url" <|> attrT attrs "src" with
            | none => refine ⟨room, ?_, ?_, ?_, ?_, ?_⟩ <;> first | rfl | trivial
            | some url => refine ⟨_, rfl, ?_, ?_, ?_, ?_⟩ <;> first | rfl | trivial
          · simp only [hp, Bool.false_eq_true, if_false]
            by_cases ha : (nm == "Amenity") = true
            · simp only [ha, if_true]
              refine ⟨_, rfl, ?_, ?_, ?_, ?_⟩ <;> first | rfl | trivial
            · simp only [ha, Bool.false_eq_true, if_false]
              refine ⟨room, ?_, ?_, ?_, ?_, ?_⟩ <;> first | rfl | trivial

theorem rateClose_monetary (rate : StaysRoomRate) (name content : String)
    (attrs : List (String × String)) (hA : (name == "Amount") = false)
    (hT : (name == "Total") = false) (h : MonetaryDefaults rate) :
    MonetaryDefaults (rateClose rate name content attrs) := by
  unfold rateClose
  simp only [hA, hT, Bool.or_self, Bool.false_eq_true, if_false]
  (repeat' split) <;> exact h

/-- Effect of `onCloseTag` for a close tag that is inert for an open rate's
monetary fields and for the room name/boundary. -/
theorem onCloseTag_rateInert (st : ParserState) (nm : String)
    (attrs : List (String × String)) (room : StaysRoom) (rate : StaysRoomRate)
    (hcr : st.currentRoom = some room) (hrate : st.currentRate = some rate)
    (hr : isRoomTag nm = false) (hrt : isRateTag nm = false)
    (hA : (nm == "Amount") = false) (hT : (nm == "Total") = false)
    (hN : (nm == "Name") = false) (hRN : (nm == "RoomName") = false) :
    ∃ room' rate', (onCloseTag st nm attrs).currentRoom = some room' ∧
      room'.name = room.name ∧ room'.rates = room.rates ∧
      (onCloseTag st nm attrs).currentRate = some rate' ∧
      (MonetaryDefaults rate → MonetaryDefaults rate') ∧
      (onCloseTag st nm attrs).output = st.output := by
  unfold onCloseTag
  simp only [hcr]
  by_cases hw : isWrapperTag nm = true <;>
    simp only [hw, if_true, Bool.false_eq_true, if_false] <;>
    · simp only [hrate, hrt, Bool.false_eq_true, if_false]
      unfold finishClose
      simp only [hr, Bool.false_eq_true, if_false]
      exact ⟨applyRoomField room nm (strTrim st.textBuffer),
        rateClose rate nm (strTrim st.textBuffer) attrs, rfl,
        applyRoomField_name_pres room nm (strTrim st.textBuffer) hN hRN,
        applyRoomField_rates room nm (strTrim st.textBuffer), rfl,
        rateClose_monetary rate nm (strTrim st.textBuffer) attrs hA hT, by trivial⟩

/-- One inert event preserves the rate-body invariant. -/
theorem rateInv_step (now : Nat) (n0 : String) (hn : n0 ≠ "") :
    ∀ (st : ParserState) (e : XmlEvent), RateInv n0 st → inertForRate e = true →
      RateInv n0 (step now st e) := by
  rintro st e ⟨room, rate, hcr, hname, hrates, hrate, hmon, hout⟩ he
  have hnroom : room.name ≠ "" := by rw [hname]; exact hn
  cases e with
  | text s =>
    refine ⟨room, rate, ?_, hname, hrates, ?_, hmon, ?_⟩ <;> simp [step, onText, hcr, hrate, hout]
  | openTag nm attrs =>
    simp only [inertForRate, Bool.not_eq_true', Bool.or_eq_false_iff] at he
    obtain ⟨room', hcr', hname', hrates', hrate', hout'⟩ :=
      onOpenTag_inert now st nm attrs room hcr hnroom he.1 he.2
    exact ⟨room', rate, hcr', hname' ▸ hname, hrates' ▸ hrates, hrate' ▸ hrate, hmon,
      hout' ▸ hout⟩
  | closeTag nm attrs =>
    simp only [inertForRate, Bool.not_eq_true', Bool.or_eq_false_iff] at he
    obtain ⟨⟨⟨⟨⟨hr, hrt⟩, hA⟩, hT⟩, hN⟩, hRN⟩ := he
    obtain ⟨room', rate', hcr', hname', hrates', hrate', hmon', hout'⟩ :=
      onCloseTag_rateInert st nm attrs room rate hcr hrate hr hrt hA hT hN hRN
    exact ⟨room', rate', hcr', hname' ▸ hname, hrates' ▸ hrates, hrate', hmon' hmon,
      hout' ▸ hout⟩

/-- C5 (amended): every rate emitted from a rate element whose nested
content does not override the monetary fields carries the initial monetary
values — total `"0.00"`/`"USD"`, and base/tax/fee/due-at-accommodation
`null`/`"USD"`. -/
theorem C5_rate_monetary_defaults (now : Nat) (n0 : String)
    (rateAttrs : List (String × String)) (body : List XmlEvent) (hn : n0 ≠ "")
    (hb : ∀ e ∈ body, inertForRate e = true) :
    ∃ er rate, runParser now
        ([XmlEvent.openTag "Room" [("name", n0)], XmlEvent.openTag "Rate" rateAttrs] ++
          body ++ [XmlEvent.closeTag "Rate" [], XmlEvent.closeTag "Room" []]) = [er] ∧
      er.room.rates = [rate] ∧ MonetaryDefaults rate := by
  have hne : (n0 == "") = false := beq_eq_false_iff_ne.mpr hn
  unfold runParser
  rw [List.foldl_append, List.foldl_append]
  have h0 : RateInv n0 (List.foldl (step now) initState
      [XmlEvent.openTag "Room" [("name", n0)], XmlEvent.openTag "Rate" rateAttrs]) := by
    refine ⟨⟨n0, none, [], [], [], {}, []⟩,
      defaultRate now (attrT rateAttrs "id") (attrT rateAttrs "code"),
      ?_, rfl, rfl, ?_, ?_, ?_⟩ <;>
      simp [step, onOpenTag, initState, isWrapperTag, isRoomTag, isRateTag, attrT, hne,
        MonetaryDefaults, defaultRate]
  have hB := foldl_inv (step now) (RateInv n0) inertForRate (rateInv_step now n0 hn)
    body _ hb h0
  obtain ⟨room, rate, hcr, hname, hrates, hrate, hmon, hout⟩ := hB
  set stB := List.foldl (step now)
    (List.foldl (step now) initState
      [XmlEvent.openTag "Room" [("name", n0)], XmlEvent.openTag "Rate" rateAttrs]) body
  have hstep1 : List.foldl (step now) stB
      [XmlEvent.closeTag "Rate" [], XmlEvent.closeTag "Room" []] =
      step now (step now stB (XmlEvent.closeTag "Rate" [])) (XmlEvent.closeTag "Room" []) :=
    rfl
  rw [hstep1]
  have hclose1 : step now stB (XmlEvent.closeTag "Rate" []) =
      { stB with currentRoom := some { room with rates := room.rates ++ [rate] },
                 currentRate := none } := by
    simp [step, onCloseTag, hcr, hrate, isWrapperTag, isRateTag]
  rw [hclose1]
  have hname1 : ({ room with rates := room.rates ++ [rate] } : StaysRoom).name ≠ "" := by
    rw [hname]; exact hn
  have hne1 : (({ room with rates := room.rates ++ [rate] } : StaysRoom).name != "") = true :=
    bne_iff_ne.mpr hname1
  refine ⟨⟨{ room with rates := room.rates ++ [rate] }, stB.currentSourceId,
    stB.currentHotelId⟩, rate, ?_, by simp [hrates], hmon⟩
  simp [step, onCloseTag, isWrapperTag, isRateTag, finishClose, applyRoomField,
    isRoomTag, hne1, hout]

theorem C5_witness :
    ∃ er rate, runParser 0
        ([XmlEvent.openTag "Room" [("name", "A")], XmlEvent.openTag "Rate" [("id", "r1")]] ++
          [] ++ [XmlEvent.closeTag "Rate" [], XmlEvent.closeTag "Room" []]) = [er] ∧
      er.room.rates = [rate] ∧ MonetaryDefaults rate :=
  C5_rate_monetary_defaults 0 "A" [("id", "r1")] [] (by decide)
    (fun e he => absurd he (List.not_mem_nil e))

theorem incFirstBed_eq_none (t : StaysBedType) :
    ∀ beds : List StaysBed, beds.filter (fun b => b.type == t) = [] →
      incFirstBed beds t = none := by
  intro beds
  induction beds with
  | nil => intro _; rfl
  | cons b bs ih =>
    intro h
    simp only [List.filter_cons] at h
    by_cases hb : (b.type == t) = true
    · simp [hb] at h
    · simp only [hb, Bool.false_eq_true, if_false] at h
      simp [incFirstBed, hb, ih h]

theorem incFirstBed_some_filter (t : StaysBedType) (c : Option Int) :
    ∀ beds : List StaysBed, beds.filter (fun b => b.type == t) = [⟨t, c⟩] →
      ∃ bs, incFirstBed beds t = some bs ∧
        bs.filter (fun b => b.type == t) = [⟨t, c.map (· + 1)⟩] := by
  intro beds
  induction beds with
  | nil => intro h; simp at h
  | cons b bs ih =>
    intro h
    simp only [List.filter_cons] at h
    by_cases hb : (b.type == t) = true
    · simp only [hb, if_true, List.cons.injEq] at h
      obtain ⟨hbx, hrest⟩ := h
      subst hbx
      refine ⟨⟨t, c.map (· + 1)⟩ :: bs, by simp [incFirstBed, hb], ?_⟩
      simp [List.filter_cons, hrest]
    · simp only [hb, Bool.false_eq_true, if_false] at h
      obtain ⟨bs', h1, h2⟩ := ih h
      refine ⟨b :: bs', by simp [incFirstBed, hb, h1], ?_⟩
      simp [List.filter_cons, hb, h2]

theorem incFirstBed_other_filter (t ty : StaysBedType) (hne : (ty == t) = false) :
    ∀ beds bs : List StaysBed, incFirstBed beds ty = some bs →
      bs.filter (fun b => b.type == t) = beds.filter (fun b => b.type == t) := by
  intro beds
  induction beds with
  | nil => intro bs h; simp [incFirstBed] at h
  | cons b l ih =>
    intro bs h
    unfold incFirstBed at h
    by_cases hb : (b.type == ty) = true
    · simp only [hb, if_true, Option.some.injEq] at h
      subst h
      simp only [List.filter_cons]
      cases hcond : (b.type == t) with
      | false => simp [hcond]
      | true =>
        exfalso
        have h1 : b.type = ty := beq_iff_eq.mp hb
        have h2 : b.type = t := beq_iff_eq.mp hcond
        rw [h1] at h2
        exact absurd (beq_iff_eq.mpr h2) (by rw [hne]; exact Bool.false_ne_true)
    · simp only [hb, Bool.false_eq_true, if_false] at h
      cases hi : incFirstBed l ty with
      | none => rw [hi] at h; simp at h
      | some l' =>
        rw [hi] at h
        simp only [Option.map_some', Option.some.injEq] at h
        subst h
        simp only [List.filter_cons]
        cases hcond : (b.type == t) <;> simp [hcond, ih l' hi]

/-- One bed-producing child preserves the bed-aggregation invariant, adding
one to the count exactly when it is a `BedType` text tag normalizing to `t`. -/
theorem bedBlock_step (now : Nat) (n0 : String) (t : StaysBedType) (k : Nat)
    (st : ParserState) (e : BedEvent) (hInv : BedInv n0 t k st)
    (hattr : noAttrOf t e = true) :
    BedInv n0 t (k + (if isBtextOf t e then 1 else 0))
      (List.foldl (step now) st (bedEvts e)) := by
  obtain ⟨room, hcr, hname, hrate, hout, hbeds⟩ := hInv
  cases e with
  | btext s =>
    simp only [bedEvts, List.foldl_cons, List.foldl_nil]
    have h1 : step now st (XmlEvent.openTag "BedType" []) = { st with textBuffer := "" } := by
      simp [step, onOpenTag, hcr, isWrapperTag, isRoomTag, isRateTag, attrT]
    rw [h1]
    have h2 : step now ({ st with textBuffer := "" } : ParserState) (XmlEvent.text s) =
        { st with textBuffer := "" ++ s } := by
      simp [step, onText, hcr]
    rw [h2]
    have hempty : ("" ++ s) = s := str_empty_append s
    have h3 : step now ({ st with textBuffer := "" ++ s } : ParserState)
        (XmlEvent.closeTag "BedType" []) =
        { st with textBuffer := "" ++ s,
                  currentRoom := some (applyRoomField room "BedType" (strTrim s)) } := by
      simp [step, onCloseTag, hcr, hrate, isWrapperTag, isRateTag, finishClose,
        isRoomTag, hempty]
    rw [h3]
    refine ⟨applyRoomField room "BedType" (strTrim s), rfl,
      (applyRoomField_name_pres room "BedType" (strTrim s) rfl rfl).trans hname, hrate, hout, ?_⟩
    have happ : (applyRoomField room "BedType" (strTrim s)).beds =
        (match incFirstBed room.beds (normalizeBedType (strTrim s)) with
          | some bs => bs
          | none => room.beds ++ [⟨normalizeBedType (strTrim s), some 1⟩]) := by
      unfold applyRoomField
      simp only [show (("BedType" == "Name") || ("BedType" == "RoomName")) = false from rfl,
        show ("BedType" == "MaxOccupancy") = false from rfl,
        show ("BedType" == "Description") = false from rfl,
        show ("BedType" == "BedType") = true from rfl, Bool.false_eq_true, if_false, if_true]
      cases incFirstBed room.beds (normalizeBedType (strTrim s)) <;> rfl
    by_cases hty : (normalizeBedType (strTrim s) == t) = true
    · have hbt : isBtextOf t (BedEvent.btext s) = true := hty
      simp only [hbt, if_true]
      have ht' : normalizeBedType (strTrim s) = t := beq_iff_eq.mp hty
      cases k with
      | zero =>
        simp only [bedFilterEntry, if_pos rfl] at hbeds
        have hnone := incFirstBed_eq_none t room.beds hbeds
        rw [happ, ht', hnone]
        simp [List.filter_append, hbeds, bedFilterEntry]
      | succ k2 =>
        have hkne : (k2 + 1 : Nat) ≠ 0 := Nat.succ_ne_zero k2
        simp only [bedFilterEntry, hkne, if_false] at hbeds
        obtain ⟨bs, h4, h5⟩ := incFirstBed_some_filter t (some ((k2 + 1 : Nat) : Int))
          room.beds hbeds
        rw [happ, ht', h4]
        simp only [h5, Option.map_some', bedFilterEntry,
          Nat.succ_ne_zero, if_false]
        have hcast : (((k2 + 1 : Nat) : Int) + 1) = (((k2 + 1 + 1 : Nat)) : Int) := by
          push_cast
          ring
        rw [hcast]
    · have hbt : isBtextOf t (BedEvent.btext s) = false := by
        simpa [isBtextOf] using hty
      simp only [hbt, Bool.false_eq_true, if_false, Nat.add_zero]
      cases hinc : incFirstBed room.beds (normalizeBedType (strTrim s)) with
      | some bs =>
        rw [happ, hinc]
        rw [incFirstBed_other_filter t (normalizeBedType (strTrim s))
          (by simpa using hty) room.beds bs hinc]
        exact hbeds
      | none =>
        rw [happ, hinc]
        rw [List.filter_append]
        have : List.filter (fun b => b.type == t)
            [(⟨normalizeBedType (strTrim s), some 1⟩ : StaysBed)] = [] := by
          simp [List.filter_cons, hty]
        rw [this, List.append_nil]
        exact hbeds
  | battr ty cnt =>
    have htyne : (normalizeBedType ty == t) = false := by
      simpa [noAttrOf] using hattr
    simp only [bedEvts, List.foldl_cons, List.foldl_nil]
    have hgetD : (attrT [("type", ty), ("count", cnt)] "type").getD "" = ty := by
      have hx : attrT [("type", ty), ("count", cnt)] "type" =
          if (ty == "") = true then none else some ty := rfl
      rw [hx]
      by_cases h : (ty == "") = true
      · simp only [h, if_true, Option.getD_none]
        exact (beq_iff_eq.mp h).symm
      · simp [h]
    set newBed : StaysBed :=
      ⟨normalizeBedType ty,
        parseIntJS ((attrT [("type", ty), ("count", cnt)] "count").getD "1")⟩ with hnb
    have happly : ∀ (r : StaysRoom) (c : String), applyRoomField r "Bed" c = r :=
      fun r c => rfl
    have h1 : step now st (XmlEvent.openTag "Bed" [("type", ty), ("count", cnt)]) =
        { st with textBuffer := "",
                  currentRoom := some { room with beds := room.beds ++ [newBed] } } := by
      simp [step, onOpenTag, hcr, isWrapperTag, isRoomTag, isRateTag, hgetD, hnb]
    rw [h1]
    have h2 : step now
        ({ st with textBuffer := "",
                   currentRoom := some { room with beds := room.beds ++ [newBed] } } :
          ParserState)
        (XmlEvent.closeTag "Bed" [("type", ty), ("count", cnt)]) =
        { st with textBuffer := "",
                  currentRoom := some { room with beds := room.beds ++ [newBed] } } := by
      simp [step, onCloseTag, hrate, isWrapperTag, isRateTag, finishClose, isRoomTag, happly]
    rw [h2]
    have hbt : isBtextOf t (BedEvent.battr ty cnt) = false := rfl
    simp only [hbt, Bool.false_eq_true, if_false, Nat.add_zero]
    refine ⟨_, rfl, hname, hrate, hout, ?_⟩
    simp only [List.filter_append]
    have hsingle : List.filter (fun b => b.type == t) [newBed] = [] := by
      simp [hnb, List.filter_cons, htyne]
    rw [hsingle, List.append_nil]
    exact hbeds

/-- The bed-aggregation invariant over a whole list of bed-producing
children. -/
theorem bedFold (now : Nat) (n0 : String) (t : StaysBedType) :
    ∀ (body : List BedEvent) (st : ParserState) (k : Nat), BedInv n0 t k st →
      (∀ e ∈ body, noAttrOf t e = true) →
      BedInv n0 t (k + (body.filter (isBtextOf t)).length)
        (List.foldl (step now) st (eventsOfBeds body)) := by
  intro body
  induction body with
  | nil => intro st k h _; simpa [eventsOfBeds] using h
  | cons e es ih =>
    intro st k h hattr
    have hstep := bedBlock_step now n0 t k st e h (hattr e (List.mem_cons_self e es))
    have hrest := ih (List.foldl (step now) st (bedEvts e))
      (k + (if isBtextOf t e then 1 else 0)) hstep
      (fun e2 he2 => hattr e2 (List.mem_cons_of_mem e he2))
    have hev : eventsOfBeds (e :: es) = bedEvts e ++ eventsOfBeds es := rfl
    rw [hev, List.foldl_append]
    cases hbt : isBtextOf t e with
    | true =>
      simp only [hbt, if_true] at hrest
      have : k + ((e :: es).filter (isBtextOf t)).length =
          k + 1 + (es.filter (isBtextOf t)).length := by
        simp [List.filter_cons, hbt]
        omega
      rw [this]
      exact hrest
    | false =>
      simp only [hbt, if_false, Nat.add_zero] at hrest
      have : k + ((e :: es).filter (isBtextOf t)).length =
          k + (es.filter (isBtextOf t)).length := by
        simp [List.filter_cons, hbt]
      rw [this]
      exact hrest

/-- C7: a room containing `n ≥ 1` element-style `BedType` tags normalizing
to `t` and no attribute-style `Bed` tag of type `t` (other bed types may
occur freely) yields exactly one type-`t` bed entry, with count `n`. -/
theorem C7_bedtype_aggregation (now : Nat) (n0 : String) (t : StaysBedType)
    (body : List BedEvent) (hn : n0 ≠ "")
    (hc : 1 ≤ (body.filter (isBtextOf t)).length)
    (hattr : ∀ e ∈ body, noAttrOf t e = true) :
    ∃ er, runParser now ([XmlEvent.openTag "Room" [("name", n0)]] ++ eventsOfBeds body ++
        [XmlEvent.closeTag "Room" []]) = [er] ∧
      er.room.name = n0 ∧
      er.room.beds.filter (fun b => b.type == t) =
        [⟨t, some (((body.filter (isBtextOf t)).length : Nat) : Int)⟩] := by
  have hne : (n0 == "") = false := beq_eq_false_iff_ne.mpr hn
  unfold runParser
  rw [List.foldl_append, List.foldl_append]
  have h0 : BedInv n0 t 0 (List.foldl (step now) initState
      [XmlEvent.openTag "Room" [("name", n0)]]) := by
    refine ⟨⟨n0, none, [], [], [], {}, []⟩, ?_, rfl, ?_, ?_, ?_⟩ <;>
      simp [step, onOpenTag, initState, isWrapperTag, isRoomTag, isRateTag, attrT, hne,
        bedFilterEntry]
  have hB := bedFold now n0 t body _ 0 h0 hattr
  rw [Nat.zero_add] at hB
  obtain ⟨room, hcr, hname, hrate, hout, hbeds⟩ := hB
  set stB := List.foldl (step now)
    (List.foldl (step now) initState [XmlEvent.openTag "Room" [("name", n0)]])
    (eventsOfBeds body)
  have hname1 : (room.name != "") = true := bne_iff_ne.mpr (by rw [hname]; exact hn)
  set er0 : EmittedRoom := ⟨room, stB.currentSourceId, stB.currentHotelId⟩ with her0
  have hfinal : List.foldl (step now) stB [XmlEvent.closeTag "Room" []] =
      { stB with currentRoom := none, currentSourceId := none,
                 output := stB.output ++ [er0] } := by
    simp [step, onCloseTag, hcr, hrate, isWrapperTag, isRateTag, finishClose,
      applyRoomField, isRoomTag, hname1, her0]
  rw [hfinal]
  refine ⟨er0, ?_, hname, ?_⟩
  · simp [hout]
  · have hk : (body.filter (isBtextOf t)).length ≠ 0 := by omega
    show room.beds.filter (fun b => b.type == t) = _
    rw [hbeds]
    simp [bedFilterEntry, hk]

theorem C7_witness :
    ∃ er, runParser 0 ([XmlEvent.openTag "Room" [("name", "A")]] ++
        eventsOfBeds [BedEvent.btext "King Bed", BedEvent.btext "KING",
          BedEvent.battr "Twin" "1"] ++
        [XmlEvent.closeTag "Room" []]) = [er] ∧
      er.room.name = "A" ∧
      er.room.beds.filter (fun b => b.type == StaysBedType.king) =
        [⟨StaysBedType.king,
          some ((([BedEvent.btext "King Bed", BedEvent.btext "KING",
            BedEvent.battr "Twin" "1"].filter (isBtextOf StaysBedType.king)).length : Nat) :
              Int)⟩] :=
  C7_bedtype_aggregation 0 "A" StaysBedType.king
    [BedEvent.btext "King Bed", BedEvent.btext "KING", BedEvent.battr "Twin" "1"]
    (by decide) (by decide) (by decide)

/-- C5 counterexample: a rate emitted from a rate element with no nested
monetary content does not have amount `"0.00"` on all five pairs — the
base/tax/fee/due-at-accommodation amounts are `null`. -/
theorem C5_counterexample :
    ¬(∀ er ∈ runParser 0 c5Events, ∀ r ∈ er.room.rates,
        r.total_amount = "0.00" ∧ r.base_amount = some "0.00" ∧
        r.tax_amount = some "0.00" ∧ r.fee_amount = some "0.00" ∧
        r.due_at_accommodation_amount = some "0.00") := by
  decide

end Stays
